import Mathlib

/-!
Shallow embedding of the Dark Forest client entity cache and continuous-time
simulation engine, translated from src/Backend/GameLogic/GameObjects.ts
(which also contains the ArrivalUtils section appended at the bottom of the
file).  JS numbers are modelled as rationals.  Math.exp is a transcendental
host function; it is passed to the model as an explicit parameter jsExp, so
every theorem quantifies over it (or instantiates it on branches where the
source never evaluates it).  Ambient effects (Date.now, the process-wide
store) are made explicit as parameters and a state record.
-/

namespace DFClient

abbrev EthAddress := ℕ
abbrev LocationId := ℕ
abbrev ArtifactId := ℕ
abbrev VoyageId := ℕ

/-- Modelled from the spec: the empty-address sentinel marking unowned
territory (EMPTY_ADDRESS is imported from an external constants package). -/
def EMPTY_ADDRESS : EthAddress := 0

/-- Modelled from the spec: the fixed-point precision constant used by
arrival resolution; the spec fixes CONTRACT_PRECISION = 1000. -/
def CONTRACT_PRECISION : ℚ := 1000

/-- JS Math.floor on a rational, returned as a rational. -/
def mathFloor (x : ℚ) : ℚ := ((Int.floor x : ℤ) : ℚ)

/-- SpaceType enum from the external types package (values 0..3). -/
inductive SpaceType where
  | NEBULA
  | SPACE
  | DEEP_SPACE
  | DEAD_SPACE
deriving DecidableEq, Repr

/-- Numeric value of a SpaceType, as used by getBiome (biome = 3 * spaceType + k). -/
def SpaceType.num : SpaceType → ℕ
  | .NEBULA => 0
  | .SPACE => 1
  | .DEEP_SPACE => 2
  | .DEAD_SPACE => 3

/-- PlanetType enum from the external types package (values 0..4, in order). -/
inductive PlanetType where
  | PLANET
  | SILVER_MINE
  | RUINS
  | TRADING_POST
  | SILVER_BANK
deriving DecidableEq, Repr

/-- The PlanetType with numeric value i, used by planetTypeFromHexPerlin
(the i as PlanetType cast).  Indices past 4 cannot arise from the deployed
five-entry weight tables; they fall back to PLANET here. -/
def planetTypeOfNat : ℕ → PlanetType
  | 0 => .PLANET
  | 1 => .SILVER_MINE
  | 2 => .RUINS
  | 3 => .TRADING_POST
  | 4 => .SILVER_BANK
  | _ => .PLANET

/-- ArtifactType enum (only the constructors the core logic inspects,
plus a generic one for all others). -/
inductive ArtifactType where
  | Wormhole
  | PhotoidCannon
  | BloomFilter
  | Other
deriving DecidableEq, Repr

/-- Biome.CORRUPTED from the external types package. -/
def BIOME_CORRUPTED : ℕ := 10

structure WorldCoords where
  x : ℚ
  y : ℚ
deriving DecidableEq, Repr

structure WorldLocation where
  coords : WorldCoords
  hash : LocationId
  perlin : ℚ
  biomebase : ℚ
deriving DecidableEq, Repr

/-- RevealedLocation extends WorldLocation with the revealer address. -/
structure RevealedLocation where
  loc : WorldLocation
  revealer : EthAddress
deriving DecidableEq, Repr

/-- The five innate bonus flags returned by the external bonusFromHex. -/
structure Bonus where
  energyCapBonus : Bool
  energyGroBonus : Bool
  rangeBonus : Bool
  speedBonus : Bool
  defBonus : Bool
deriving DecidableEq, Repr

/-- An upgrade (stat multipliers in percent), from the external types package. -/
structure Upgrade where
  energyCapMultiplier : ℚ
  energyGroMultiplier : ℚ
  rangeMultiplier : ℚ
  speedMultiplier : ℚ
  defMultiplier : ℚ
deriving DecidableEq, Repr

/-- An artifact.  Pending-transaction slots are elided (they play no role in
the claims about artifacts beyond existence); the activation state is a
boolean field read through isActivated. -/
structure Artifact where
  id : ArtifactId
  artifactType : ArtifactType
  currentOwner : EthAddress
  onPlanetId : Option LocationId
  onVoyageId : Option VoyageId
  wormholeTo : Option LocationId
  activated : Bool
  lastActivated : ℚ
  timeDelayedUpgrade : Upgrade
deriving DecidableEq, Repr

/-- Modelled from the spec: isActivated lives in ArtifactUtils.ts which is
not part of the provided source; the spec describes an activation state on
each item, modelled here as the boolean field read off directly. -/
def isActivated (a : Artifact) : Bool := a.activated

/-- A scheduled arrival (QueuedArrival from the external types package). -/
structure QueuedArrival where
  eventId : VoyageId
  player : EthAddress
  fromPlanet : LocationId
  toPlanet : LocationId
  energyArriving : ℚ
  silverMoved : ℚ
  departureTime : ℚ
  arrivalTime : ℚ
  artifactId : Option ArtifactId
deriving DecidableEq, Repr

/-- A planet.  The pending/unconfirmed slots hold opaque action identifiers
(naturals) standing for the unconfirmed-transaction objects of the source;
their contents never matter to the core logic, only their presence and
identity. -/
structure Planet where
  locationId : LocationId
  perlin : ℚ
  spaceType : SpaceType
  owner : EthAddress
  hatLevel : ℚ
  bonus : Bonus
  planetLevel : ℕ
  planetType : PlanetType
  isHomePlanet : Bool
  energyCap : ℚ
  energyGrowth : ℚ
  silverCap : ℚ
  silverGrowth : ℚ
  range : ℚ
  speed : ℚ
  defense : ℚ
  energy : ℚ
  silver : ℚ
  lastUpdated : ℚ
  upgradeState : List ℕ
  unconfirmedReveal : Option ℕ
  unconfirmedDepartures : List ℕ
  unconfirmedUpgrades : List ℕ
  unconfirmedBuyHats : List ℕ
  unconfirmedPlanetTransfers : List ℕ
  unconfirmedFindArtifact : Option ℕ
  unconfirmedDepositArtifact : Option ℕ
  unconfirmedWithdrawArtifact : Option ℕ
  unconfirmedActivateArtifact : Option ℕ
  unconfirmedDeactivateArtifact : Option ℕ
  unconfirmedWithdrawSilver : Option ℕ
  unconfirmedProspectPlanet : Option ℕ
  unconfirmedClearEmoji : Bool
  unconfirmedAddEmoji : Bool
  loadingServerState : Bool
  needsServerRefresh : Bool
  lastLoadedServerState : Option ℚ
  emojiBobAnimation : Option ℕ
  emojiZoopAnimation : Option ℕ
  emojiZoopOutAnimation : Option ℕ
  messages : Option (List ℕ)
  silverSpent : ℚ
  prospectedBlockNumber : Option ℕ
  heldArtifactIds : List ArtifactId
  destroyed : Bool
  isInContract : Bool
  syncedWithContract : Bool
  coordsRevealed : Bool
  revealer : Option EthAddress
  claimer : Option EthAddress
  location : Option WorldLocation
  biome : Option ℕ
  hasTriedFindingArtifact : Bool
  localPhotoidUpgrade : Option Upgrade
deriving DecidableEq, Repr

/-- Modelled from the spec: hasOwner lives in Utils.ts which is not part of
the provided source; the spec says a territory is unowned exactly when its
owner equals the empty-address sentinel. -/
def hasOwner (p : Planet) : Bool := p.owner ≠ EMPTY_ADDRESS

/-- The downloaded ruleset constants (ContractConstants).  Per-level tables
are modelled as total functions on the level index. -/
structure ContractConstants where
  planetLevelThresholds : ℕ → ℕ
  MAX_NATURAL_PLANET_LEVEL : ℕ
  PERLIN_THRESHOLD_1 : ℚ
  PERLIN_THRESHOLD_2 : ℚ
  PERLIN_THRESHOLD_3 : ℚ
  BIOME_THRESHOLD_1 : ℚ
  BIOME_THRESHOLD_2 : ℚ
  PLANET_TYPE_WEIGHTS : SpaceType → ℕ → List ℚ
  defaultPopulationCap : ℕ → ℚ
  defaultPopulationGrowth : ℕ → ℚ
  defaultRange : ℕ → ℚ
  defaultSpeed : ℕ → ℚ
  defaultDefense : ℕ → ℚ
  defaultSilverCap : ℕ → ℚ
  defaultSilverGrowth : ℕ → ℚ
  defaultBarbarianPercentage : ℕ → ℚ
  TIME_FACTOR_HUNDREDTHS : ℚ
  PHOTOID_ACTIVATION_DELAY : ℚ
  DESTROY_THRESHOLD : ℚ

/-- The external hexgen package functions (getBytesFromHex at offsets 4..7
and 8..9, and bonusFromHex), pure functions of the content hash, passed to
the procedural generator as parameters. -/
structure HexGen where
  bytes47 : LocationId → ℕ
  byte89 : LocationId → ℕ
  bonusOf : LocationId → Bonus

/-! ### Continuous-time resource model (ArrivalUtils section of the source) -/

/-- getSilverOverTime: linear capped silver growth; unowned planets never
accrue, over-cap reads clamp to cap. -/
def getSilverOverTime (planet : Planet) (startTimeMillis endTimeMillis : ℚ) : ℚ :=
  if ¬ hasOwner planet then planet.silver
  else if planet.silver > planet.silverCap then planet.silverCap
  else
    let timeElapsed := endTimeMillis / 1000 - startTimeMillis / 1000
    min (timeElapsed * planet.silverGrowth + planet.silver) planet.silverCap

/-- getEnergyAtTime: logistic energy growth with asymptote energyCap; zero
energy stays zero, unowned planets never accrue, SILVER_BANK planets clamp
an over-cap value to cap. -/
def getEnergyAtTime (jsExp : ℚ → ℚ) (planet : Planet) (atTimeMillis : ℚ) : ℚ :=
  if planet.energy = 0 then 0
  else if ¬ hasOwner planet then planet.energy
  else if planet.planetType = PlanetType.SILVER_BANK ∧ planet.energy > planet.energyCap then
    planet.energyCap
  else
    let timeElapsed := atTimeMillis / 1000 - planet.lastUpdated
    let denominator :=
      jsExp (-4 * planet.energyGrowth * timeElapsed / planet.energyCap) *
        (planet.energyCap / planet.energy - 1) + 1
    planet.energyCap / denominator

/-- applyUpgrade: multiplies stats by the percent multipliers (dividing when
unApply is set).  Note the source multiplies speed by energyCapMultiplier
instead of scaling energyCap. -/
def applyUpgrade (planet : Planet) (upgrade : Upgrade) (unApply : Bool) : Planet :=
  if unApply then
    { planet with
        speed := planet.speed / (upgrade.energyCapMultiplier / 100)
                   / (upgrade.speedMultiplier / 100),
        energyGrowth := planet.energyGrowth / (upgrade.energyGroMultiplier / 100),
        range := planet.range / (upgrade.rangeMultiplier / 100),
        defense := planet.defense / (upgrade.defMultiplier / 100) }
  else
    { planet with
        speed := planet.speed * (upgrade.energyCapMultiplier / 100)
                   * (upgrade.speedMultiplier / 100),
        energyGrowth := planet.energyGrowth * (upgrade.energyGroMultiplier / 100),
        range := planet.range * (upgrade.rangeMultiplier / 100),
        defense := planet.defense * (upgrade.defMultiplier / 100) }

/-- The predicate of the activePhotoid lookup inside updatePlanetToTime. -/
def isActivePhotoid (cc : ContractConstants) (atTimeMillis : ℚ) (a : Artifact) : Bool :=
  a.artifactType = ArtifactType.PhotoidCannon && isActivated a &&
    decide (atTimeMillis - a.lastActivated * 1000 ≥ cc.PHOTOID_ACTIVATION_DELAY * 1000)

/-- updatePlanetToTime: brings a planet current to atTimeMillis; no-op when
the target strictly precedes lastUpdated; applies a pending photoid upgrade
at most once (tracked by localPhotoidUpgrade).  The setPlanet callback of
the source is a notification hook and has no effect on the planet. -/
def updatePlanetToTime (jsExp : ℚ → ℚ) (planet : Planet) (planetArtifacts : List Artifact)
    (atTimeMillis : ℚ) (cc : ContractConstants) : Planet :=
  if atTimeMillis < planet.lastUpdated * 1000 then planet
  else
    let p1 := { planet with
      silver := getSilverOverTime planet (planet.lastUpdated * 1000) atTimeMillis }
    let p2 := { p1 with energy := getEnergyAtTime jsExp p1 atTimeMillis }
    let p3 := { p2 with lastUpdated := atTimeMillis / 1000 }
    match planetArtifacts.find? (isActivePhotoid cc atTimeMillis) with
    | some activePhotoid =>
        if p3.localPhotoidUpgrade = none then
          applyUpgrade
            { p3 with localPhotoidUpgrade := some activePhotoid.timeDelayedUpgrade }
            activePhotoid.timeDelayedUpgrade false
        else p3
    | none => p3

/-- The before/after diff produced by arrival resolution. -/
structure PlanetDiff where
  previous : Planet
  current : Planet
  arrival : QueuedArrival
deriving DecidableEq, Repr

/-- The attack/conquest/reinforcement part of the energy phase of arrive
(including the destroy check of the conquest branch). -/
def arriveEnergyMain (cc : ContractConstants) (arrival : QueuedArrival) (p : Planet) : Planet :=
  let energyArriving := arrival.energyArriving
  if arrival.player ≠ p.owner then
    if p.energy >
        mathFloor (energyArriving * CONTRACT_PRECISION * 100 / p.defense)
          / CONTRACT_PRECISION then
      { p with energy := p.energy -
          mathFloor (energyArriving * CONTRACT_PRECISION * 100 / p.defense)
            / CONTRACT_PRECISION }
    else
      let pd :=
        if p.owner ≠ EMPTY_ADDRESS ∧ cc.DESTROY_THRESHOLD > 0 ∧
            mathFloor (energyArriving * CONTRACT_PRECISION * 100 / p.defense)
              / CONTRACT_PRECISION > p.energy * cc.DESTROY_THRESHOLD then
          { p with destroyed := true }
        else p
      { pd with
          owner := arrival.player,
          energy := energyArriving -
            mathFloor (pd.energy * CONTRACT_PRECISION * pd.defense / 100)
              / CONTRACT_PRECISION }
  else
    { p with energy := p.energy + energyArriving }

/-- The post-addition SILVER_BANK clamp of the energy phase. -/
def bankClamp (p : Planet) : Planet :=
  if p.planetType = PlanetType.SILVER_BANK ∧ p.energy > p.energyCap then
    { p with energy := p.energyCap }
  else p

/-- The energy phase of arrive: attack, conquest (with the destroy check),
or reinforcement, followed by the SILVER_BANK clamp. -/
def arriveEnergy (cc : ContractConstants) (arrival : QueuedArrival) (p : Planet) : Planet :=
  bankClamp (arriveEnergyMain cc arrival p)

/-- The silver phase of arrive: add in-transit silver, clamped to the cap. -/
def arriveSilver (arrival : QueuedArrival) (p : Planet) : Planet :=
  if p.silver + arrival.silverMoved > p.silverCap then { p with silver := p.silverCap }
  else { p with silver := p.silver + arrival.silverMoved }

/-- The artifact phase of arrive: append a carried artifact reference. -/
def arriveArtifact (arrival : QueuedArrival) (p : Planet) : Planet :=
  match arrival.artifactId with
  | some aid => { p with heldArtifactIds := p.heldArtifactIds ++ [aid] }
  | none => p

/-- arrive: resolves a scheduled arrival against its destination planet.
Returns none exactly where the source throws (destination identity
mismatch).  The destination is first brought current to the arrival time;
a destroyed destination produces a no-change diff. -/
def arrive (jsExp : ℚ → ℚ) (toPlanet : Planet) (artifactsOnPlanet : List Artifact)
    (arrival : QueuedArrival) (cc : ContractConstants) : Option PlanetDiff :=
  if toPlanet.locationId ≠ arrival.toPlanet then none
  else
    let p := updatePlanetToTime jsExp toPlanet artifactsOnPlanet
      (arrival.arrivalTime * 1000) cc
    if p.destroyed then some ⟨p, p, arrival⟩
    else some ⟨p, arriveArtifact arrival (arriveSilver arrival (arriveEnergy cc arrival p)), arrival⟩

/-! ### Procedural generator (GameObjects methods) -/

/-- spaceTypeFromPerlin: region classification from the noise sample against
three ascending thresholds. -/
def spaceTypeFromPerlin (cc : ContractConstants) (perlin : ℚ) : SpaceType :=
  if perlin < cc.PERLIN_THRESHOLD_1 then SpaceType.NEBULA
  else if perlin < cc.PERLIN_THRESHOLD_2 then SpaceType.SPACE
  else if perlin < cc.PERLIN_THRESHOLD_3 then SpaceType.DEEP_SPACE
  else SpaceType.DEAD_SPACE

/-- The descending for-loop of planetLevelFromHexPerlin: the highest type in
MIN..fuel with levelBigInt below its threshold, defaulting to MIN (= 0). -/
def levelLoop (thresholds : ℕ → ℕ) (levelBigInt : ℕ) : ℕ → ℕ
  | 0 => 0
  | t + 1 => if levelBigInt < thresholds (t + 1) then t + 1 else levelLoop thresholds levelBigInt t

/-- MAX_PLANET_LEVEL from the external constants package. -/
def MAX_PLANET_LEVEL : ℕ := 9

/-- planetLevelFromHexPerlin: hash-derived level, clamped by region kind and
by the global natural maximum. -/
def planetLevelFromHexPerlin (hg : HexGen) (cc : ContractConstants)
    (hex : LocationId) (perlin : ℚ) : ℕ :=
  let spaceType := spaceTypeFromPerlin cc perlin
  let levelBigInt := hg.bytes47 hex
  let ret := levelLoop cc.planetLevelThresholds levelBigInt MAX_PLANET_LEVEL
  let ret := if spaceType = SpaceType.NEBULA ∧ ret > 4 then 4 else ret
  let ret := if spaceType = SpaceType.SPACE ∧ ret > 5 then 5 else ret
  if ret > cc.MAX_NATURAL_PLANET_LEVEL then cc.MAX_NATURAL_PLANET_LEVEL else ret

/-- The threshold recurrence of planetTypeFromHexPerlin: thresholds i =
weightSum minus the sum of weights 0..i. -/
def thresholdsAux (acc : ℚ) : List ℚ → List ℚ
  | [] => []
  | w :: ws => (acc - w) :: thresholdsAux (acc - w) ws

/-- The descending-threshold bucket search of planetTypeFromHexPerlin:
first index whose threshold the type byte reaches. -/
def firstIdxGe (typeByte : ℚ) : List ℚ → ℕ → Option ℕ
  | [], _ => none
  | t :: ts, i => if typeByte ≥ t then some i else firstIdxGe typeByte ts (i + 1)

/-- planetTypeFromHexPerlin: weighted-bucket draw over the per-region
per-level weight table, selected by a hash byte.  The deployed weight tables
are nonempty (the source would fault on an empty reduce). -/
def planetTypeFromHexPerlin (hg : HexGen) (cc : ContractConstants)
    (hex : LocationId) (perlin : ℚ) : PlanetType :=
  let planetLevel := planetLevelFromHexPerlin hg cc hex perlin
  let spaceType := spaceTypeFromPerlin cc perlin
  let weights := cc.PLANET_TYPE_WEIGHTS spaceType planetLevel
  let weightSum := weights.foldr (· + ·) 0
  let thresholds := thresholdsAux weightSum weights
  let thresholds := thresholds.map (fun x => mathFloor (x * 256 / weightSum))
  let typeByte := (hg.byte89 hex : ℚ)
  match firstIdxGe typeByte thresholds 0 with
  | some i => planetTypeOfNat i
  | none => PlanetType.PLANET

/-- getBiome: region kind forces CORRUPTED in dead space, otherwise
3 * spaceType plus a biomebase bucket in 1..3. -/
def getBiome (cc : ContractConstants) (loc : WorldLocation) : ℕ :=
  let spaceType := spaceTypeFromPerlin cc loc.perlin
  if spaceType = SpaceType.DEAD_SPACE then BIOME_CORRUPTED
  else
    3 * spaceType.num +
      (if loc.biomebase < cc.BIOME_THRESHOLD_1 then 1
       else if loc.biomebase < cc.BIOME_THRESHOLD_2 then 2
       else 3)

/-- defaultPlanetFromLocation: synthesizes the full default planet for an
untouched location.  The ambient Date.now() (milliseconds) and the
touchedPlanetIds set of the store are passed explicitly. -/
def defaultPlanetFromLocation (hg : HexGen) (cc : ContractConstants)
    (touchedPlanetIds : List LocationId) (nowMillis : ℚ)
    (location : WorldLocation) : Planet :=
  let perlin := location.perlin
  let hex := location.hash
  let planetLevel := planetLevelFromHexPerlin hg cc hex perlin
  let planetType := planetTypeFromHexPerlin hg cc hex perlin
  let spaceType := spaceTypeFromPerlin cc perlin
  let bonus := hg.bonusOf hex
  let energyCap := cc.defaultPopulationCap planetLevel
  let energyGro := cc.defaultPopulationGrowth planetLevel
  let range := cc.defaultRange planetLevel
  let speed := cc.defaultSpeed planetLevel
  let defense := cc.defaultDefense planetLevel
  let silCap := cc.defaultSilverCap planetLevel
  let silGro : ℚ :=
    if planetType = PlanetType.SILVER_MINE then cc.defaultSilverGrowth planetLevel else 0
  let energyCap := energyCap * (if bonus.energyCapBonus then 2 else 1)
  let energyGro := energyGro * (if bonus.energyGroBonus then 2 else 1)
  let range := range * (if bonus.rangeBonus then 2 else 1)
  let speed := speed * (if bonus.speedBonus then 2 else 1)
  let defense := defense * (if bonus.defBonus then 2 else 1)
  let spaceMult : ℚ :=
    if spaceType = SpaceType.DEAD_SPACE then 2
    else if spaceType = SpaceType.DEEP_SPACE then 3/2
    else if spaceType = SpaceType.SPACE then 5/4
    else 1
  let range := range * spaceMult
  let speed := speed * spaceMult
  let energyCap := energyCap * spaceMult
  let energyGro := energyGro * spaceMult
  let silCap := silCap * spaceMult
  let silGro := silGro * spaceMult
  let defense :=
    if spaceType = SpaceType.DEAD_SPACE then mathFloor (defense * 3 / 20)
    else if spaceType = SpaceType.DEEP_SPACE then defense * (1/4)
    else if spaceType = SpaceType.SPACE then defense * (1/2)
    else defense
  let speed := if planetType = PlanetType.SILVER_BANK then speed / 2 else speed
  let silCap :=
    if planetType = PlanetType.SILVER_MINE then silCap * 2
    else if planetType = PlanetType.SILVER_BANK then silCap * 10
    else if planetType = PlanetType.TRADING_POST then silCap * 2
    else silCap
  let energyGro := if planetType = PlanetType.SILVER_BANK then 0 else energyGro
  let energyCap := if planetType = PlanetType.SILVER_BANK then energyCap * 5 else energyCap
  let defense :=
    if planetType = PlanetType.SILVER_MINE then defense * (1/2)
    else if planetType = PlanetType.TRADING_POST then defense * (1/2)
    else defense
  let pirates := energyCap * cc.defaultBarbarianPercentage planetLevel / 100
  let pirates :=
    if spaceType = SpaceType.DEAD_SPACE then pirates * 20
    else if spaceType = SpaceType.DEEP_SPACE then pirates * 10
    else if spaceType = SpaceType.SPACE then pirates * 4
    else pirates
  let silver : ℚ := if planetType = PlanetType.SILVER_MINE then silCap / 2 else 0
  let speed := speed * (cc.TIME_FACTOR_HUNDREDTHS / 100)
  let energyGro := energyGro * (cc.TIME_FACTOR_HUNDREDTHS / 100)
  let silGro := silGro * (cc.TIME_FACTOR_HUNDREDTHS / 100)
  let biome := getBiome cc location
  { locationId := hex
    perlin := perlin
    spaceType := spaceType
    owner := EMPTY_ADDRESS
    hatLevel := 0
    bonus := bonus
    planetLevel := planetLevel
    planetType := planetType
    isHomePlanet := false
    energyCap := energyCap
    energyGrowth := energyGro
    silverCap := silCap
    silverGrowth := silGro
    range := range
    speed := speed
    defense := defense
    energy := pirates
    silver := silver
    lastUpdated := mathFloor (nowMillis / 1000)
    upgradeState := [0, 0, 0]
    unconfirmedReveal := none
    unconfirmedDepartures := []
    unconfirmedUpgrades := []
    unconfirmedBuyHats := []
    unconfirmedPlanetTransfers := []
    unconfirmedFindArtifact := none
    unconfirmedDepositArtifact := none
    unconfirmedWithdrawArtifact := none
    unconfirmedActivateArtifact := none
    unconfirmedDeactivateArtifact := none
    unconfirmedWithdrawSilver := none
    unconfirmedProspectPlanet := none
    unconfirmedClearEmoji := false
    unconfirmedAddEmoji := false
    loadingServerState := false
    needsServerRefresh := false
    lastLoadedServerState := none
    emojiBobAnimation := none
    emojiZoopAnimation := none
    emojiZoopOutAnimation := none
    messages := none
    silverSpent := 0
    prospectedBlockNumber := none
    heldArtifactIds := []
    destroyed := false
    isInContract := touchedPlanetIds.contains hex
    syncedWithContract := false
    coordsRevealed := false
    revealer := none
    claimer := none
    location := some location
    biome := some biome
    hasTriedFindingArtifact := false
    localPhotoidUpgrade := none }

/-! ### Entity store state (GameObjects fields and funnel operations)

The process-wide GameObjects instance is modelled as an explicit state
record.  JS Maps become functions into Option; the per-arrival setTimeout
handles become natural-number timer ids drawn from a counter, with a
predicate recording which timers are still pending (clearTimeout removes a
timer from that predicate).  The LayeredMap spatial index and the event
emitters are external collaborators (spec section 6) and are elided. -/

structure ArrivalWithTimer where
  arrivalData : QueuedArrival
  timer : ℕ
deriving DecidableEq, Repr

structure Wormhole where
  fromId : LocationId
  toId : LocationId
deriving DecidableEq, Repr

structure GState where
  planets : LocationId → Option Planet
  artifacts : ArtifactId → Option Artifact
  wormholes : ArtifactId → Option Wormhole
  arrivals : VoyageId → Option ArrivalWithTimer
  planetArrivalIds : LocationId → Option (List VoyageId)
  planetLocationMap : LocationId → Option WorldLocation
  coordsToLocation : WorldCoords → Option WorldLocation
  revealedLocations : LocationId → Option RevealedLocation
  touchedPlanetIds : List LocationId
  pendingTimers : ℕ → Bool
  nextTimer : ℕ

/-- Modelled from the spec: setPlanet funnels every planet mutation through
setObjectSyncState (EmitterUtils.ts, not part of the provided source); per
the spec the funnel updates the canonical map and publishes notifications;
the owned-subset index and the notification channels are elided. -/
def setPlanet (s : GState) (planet : Planet) : GState :=
  { s with planets := fun id => if id = planet.locationId then some planet else s.planets id }

/-- setArtifact: recomputes the derived wormhole entry for a wormhole-type
artifact that is currently on a planet (insert when it has a target and is
activated, delete otherwise), then commits to the canonical artifact map
(the map update itself is modelled from the spec, as for setPlanet). -/
def setArtifact (s : GState) (artifact : Artifact) : GState :=
  let s :=
    match artifact.onPlanetId with
    | some fromP =>
        if artifact.artifactType = ArtifactType.Wormhole then
          match artifact.wormholeTo with
          | some toP =>
              if isActivated artifact then
                { s with wormholes := fun id =>
                    if id = artifact.id then some ⟨fromP, toP⟩ else s.wormholes id }
              else
                { s with wormholes := fun id =>
                    if id = artifact.id then none else s.wormholes id }
          | none =>
              { s with wormholes := fun id =>
                  if id = artifact.id then none else s.wormholes id }
        else s
    | none => s
  { s with artifacts := fun id => if id = artifact.id then some artifact else s.artifacts id }

/-- getPlanetArtifacts: the artifacts held on a planet, dropping unknown ids. -/
def getPlanetArtifacts (s : GState) (planetId : LocationId) : List Artifact :=
  (((s.planets planetId).map Planet.heldArtifactIds).getD []).filterMap s.artifacts

/-- The fixed upgrade cost table and score bookkeeping of calculateSilverSpent.
The deployed upgrade states sum to at most five, the length of the table. -/
def calculateSilverSpent (planet : Planet) : ℚ :=
  let upgradeCosts : List ℚ := [20, 40, 60, 80, 100]
  let totalUpgrades := planet.upgradeState.foldr (· + ·) 0
  let totalUpgradeCostPercent := (upgradeCosts.take totalUpgrades).foldr (· + ·) 0
  totalUpgradeCostPercent / 100 * planet.silverCap

/-- updateScore: refreshes silverSpent on the stored planet. -/
def updateScore (s : GState) (planetId : LocationId) : GState :=
  match s.planets planetId with
  | none => s
  | some planet =>
      { s with planets := fun id =>
          if id = planetId then some { planet with silverSpent := calculateSilverSpent planet }
          else s.planets id }

/-- The body of the clearOldArrivals loop for a single arrival id: release
the timer when the arrival is known, and delete the map entry. -/
def clearArrivalId (s : GState) (arrivalId : VoyageId) : GState :=
  match s.arrivals arrivalId with
  | some awt =>
      { s with
          pendingTimers := fun t => if t = awt.timer then false else s.pendingTimers t,
          arrivals := fun v => if v = arrivalId then none else s.arrivals v }
  | none =>
      { s with arrivals := fun v => if v = arrivalId then none else s.arrivals v }

/-- clearOldArrivals: cancels every arrival recorded for the planet and
resets the per-planet index to the empty list. -/
def clearOldArrivals (s : GState) (planetId : LocationId) : GState :=
  let s1 :=
    match s.planetArrivalIds planetId with
    | some arrivalIds => arrivalIds.foldl clearArrivalId s
    | none => s
  { s1 with planetArrivalIds := fun l =>
      if l = planetId then some [] else s1.planetArrivalIds l }

/-- Insertion into a list sorted by arrival time (models the comparator
passed to Array.prototype.sort in processArrivalsForPlanet). -/
def insertSorted (a : QueuedArrival) : List QueuedArrival → List QueuedArrival
  | [] => [a]
  | b :: bs =>
      if a.arrivalTime ≤ b.arrivalTime then a :: b :: bs else b :: insertSorted a bs

/-- Sorting the arrival list by timestamp. -/
def sortByArrivalTime (l : List QueuedArrival) : List QueuedArrival :=
  l.foldr insertSorted []

/-- One iteration of the processArrivalsForPlanet loop: a past-due arrival
is resolved immediately against the stored planet (exceptions from arrive
are caught and skipped); a future arrival gets a fresh timer and is
collected. -/
def processOneArrival (jsExp : ℚ → ℚ) (cc : ContractConstants) (planetId : LocationId)
    (nowSeconds : ℚ) (acc : GState × List ArrivalWithTimer) (arrival : QueuedArrival) :
    GState × List ArrivalWithTimer :=
  let (s, awts) := acc
  if nowSeconds - arrival.arrivalTime > 0 then
    match s.planets planetId with
    | some planet =>
        match arrive jsExp planet (getPlanetArtifacts s planetId) arrival cc with
        | some diff => (setPlanet s diff.current, awts)
        | none => (s, awts)
    | none => (s, awts)
  else
    let timer := s.nextTimer
    let s := { s with
        pendingTimers := fun t => if t = timer then true else s.pendingTimers t,
        nextTimer := s.nextTimer + 1 }
    (s, awts ++ [⟨arrival, timer⟩])

/-- processArrivalsForPlanet: sorts the fresh arrivals by timestamp, applies
the past-due ones in order, schedules timers for the future ones, and
refreshes the score. -/
def processArrivalsForPlanet (jsExp : ℚ → ℚ) (cc : ContractConstants) (s : GState)
    (planetId : LocationId) (arrivals : List QueuedArrival) (nowSeconds : ℚ) :
    GState × List ArrivalWithTimer :=
  match s.planets planetId with
  | none => (s, [])
  | some _ =>
      let sorted := sortByArrivalTime arrivals
      let (s, awts) := sorted.foldl (processOneArrival jsExp cc planetId nowSeconds) (s, [])
      (updateScore s planetId, awts)

/-- markLocationRevealed: records an on-chain reveal. -/
def markLocationRevealed (s : GState) (rl : RevealedLocation) : GState :=
  { s with revealedLocations := fun id =>
      if id = rl.loc.hash then some rl else s.revealedLocations id }

/-- addPlanetLocation: learns a world location, synthesizing and committing
the default planet when none is stored, and stamping location and biome on
the stored planet.  The LayeredMap insertion is elided (external spatial
index); its level argument only reads state. -/
def addPlanetLocation (hg : HexGen) (cc : ContractConstants) (nowMillis : ℚ)
    (s : GState) (planetLocation : WorldLocation) : GState :=
  let s := { s with planetLocationMap := fun id =>
      if id = planetLocation.hash then some planetLocation else s.planetLocationMap id }
  let str := planetLocation.coords
  let s :=
    if s.coordsToLocation str = none then
      { s with coordsToLocation := fun c =>
          if c = str then some planetLocation else s.coordsToLocation c }
    else s
  let s :=
    match s.planets planetLocation.hash with
    | none =>
        setPlanet s (defaultPlanetFromLocation hg cc s.touchedPlanetIds nowMillis planetLocation)
    | some _ => s
  match s.planets planetLocation.hash with
  | some planet =>
      setPlanet s { planet with
        location := some planetLocation,
        biome := some (getBiome cc planetLocation) }
  | none => s

/-- The local-copy carry-over block of replacePlanetFromContractData: every
pending/unconfirmed slot, the server-sync bookkeeping, the emoji animation
handles, the messages, and (absent fresh artifact data) the held-artifact
list are taken from the prior local copy; every other field keeps the
incoming authoritative value. -/
def mergeLocalPlanetData (planet localPlanet : Planet) : Planet :=
  { planet with
      unconfirmedReveal := localPlanet.unconfirmedReveal,
      unconfirmedDepartures := localPlanet.unconfirmedDepartures,
      unconfirmedUpgrades := localPlanet.unconfirmedUpgrades,
      unconfirmedBuyHats := localPlanet.unconfirmedBuyHats,
      unconfirmedPlanetTransfers := localPlanet.unconfirmedPlanetTransfers,
      unconfirmedFindArtifact := localPlanet.unconfirmedFindArtifact,
      unconfirmedDepositArtifact := localPlanet.unconfirmedDepositArtifact,
      unconfirmedWithdrawArtifact := localPlanet.unconfirmedWithdrawArtifact,
      unconfirmedActivateArtifact := localPlanet.unconfirmedActivateArtifact,
      unconfirmedDeactivateArtifact := localPlanet.unconfirmedDeactivateArtifact,
      unconfirmedWithdrawSilver := localPlanet.unconfirmedWithdrawSilver,
      unconfirmedProspectPlanet := localPlanet.unconfirmedProspectPlanet,
      loadingServerState := localPlanet.loadingServerState,
      needsServerRefresh := localPlanet.needsServerRefresh,
      lastLoadedServerState := localPlanet.lastLoadedServerState,
      emojiBobAnimation := localPlanet.emojiBobAnimation,
      emojiZoopAnimation := localPlanet.emojiZoopAnimation,
      emojiZoopOutAnimation := localPlanet.emojiZoopOutAnimation,
      messages := localPlanet.messages,
      heldArtifactIds := localPlanet.heldArtifactIds }

/-- The arrival-rescheduling tail of replacePlanetFromContractData: record
the fresh arrival-with-timer in the global map and append its id to the
per-planet index. -/
def installArrival (planetId : LocationId) (s : GState) (awt : ArrivalWithTimer) : GState :=
  let s := { s with arrivals := fun v =>
      if v = awt.arrivalData.eventId then some awt else s.arrivals v }
  match s.planetArrivalIds planetId with
  | some arrivalIds =>
      { s with planetArrivalIds := fun l =>
          if l = planetId then some (arrivalIds ++ [awt.arrivalData.eventId])
          else s.planetArrivalIds l }
  | none => s

/-- The planet-value part of replacePlanetFromContractData: carry over the
speculative slots of the prior local copy, take a fresh held-artifact list
when supplied, make the planet locatable when its location is known (the
location map is read before the reveal is recorded, as in the source), and
record reveal and claim data. -/
def replaceMungePlanet (cc : ContractConstants) (s : GState) (planet : Planet)
    (updatedArtifactsOnPlanet : Option (List ArtifactId))
    (revealedLocation : Option RevealedLocation)
    (claimerEthAddress : Option EthAddress) : Planet :=
  let planet :=
    match s.planets planet.locationId with
    | some localPlanet => mergeLocalPlanetData planet localPlanet
    | none => planet
  let planet :=
    match updatedArtifactsOnPlanet with
    | some l => { planet with heldArtifactIds := l }
    | none => planet
  let loc :=
    match s.planetLocationMap planet.locationId with
    | some l => some l
    | none => revealedLocation.map RevealedLocation.loc
  let planet :=
    match loc with
    | some l => { planet with location := some l, biome := some (getBiome cc l) }
    | none => planet
  let planet :=
    match revealedLocation with
    | some rl => { planet with coordsRevealed := true, revealer := some rl.revealer }
    | none => planet
  match claimerEthAddress with
  | some c => { planet with claimer := some c }
  | none => planet

/-- replacePlanetFromContractData: ingests an authoritative planet, carrying
over local speculative state, making the planet locatable when possible,
then (when a fresh arrival list is supplied) cancelling every previously
scheduled arrival before rescheduling from the authoritative list. -/
def replacePlanetFromContractData (jsExp : ℚ → ℚ) (hg : HexGen) (cc : ContractConstants)
    (nowMillis : ℚ) (s : GState) (planet : Planet)
    (updatedArrivals : Option (List QueuedArrival))
    (updatedArtifactsOnPlanet : Option (List ArtifactId))
    (revealedLocation : Option RevealedLocation)
    (claimerEthAddress : Option EthAddress) : GState :=
  let s := { s with touchedPlanetIds := planet.locationId :: s.touchedPlanetIds }
  let planet' := replaceMungePlanet cc s planet updatedArtifactsOnPlanet
    revealedLocation claimerEthAddress
  let s :=
    match revealedLocation with
    | some rl => addPlanetLocation hg cc nowMillis (markLocationRevealed s rl) rl.loc
    | none => s
  let s := setPlanet s planet'
  let s :=
    match updatedArrivals with
    | some updArr =>
        let s := clearOldArrivals s planet'.locationId
        let pr :=
          processArrivalsForPlanet jsExp cc s planet'.locationId updArr (nowMillis / 1000)
        pr.2.foldl (installArrival planet'.locationId) pr.1
    | none => s
  updateScore s planet'.locationId

/-! ### Concrete fixtures for witnesses and counterexamples -/

/-- A concrete stand-in for Math.exp.  Every concrete statement below stays
on branches where the source either never evaluates Math.exp or evaluates
it at 0, where Math.exp returns exactly 1. -/
def jsExpOne : ℚ → ℚ := fun _ => 1

/-- A baseline planet used by the concrete statements. -/
def basePlanet : Planet :=
  { locationId := 0
    perlin := 0
    spaceType := SpaceType.NEBULA
    owner := EMPTY_ADDRESS
    hatLevel := 0
    bonus := ⟨false, false, false, false, false⟩
    planetLevel := 1
    planetType := PlanetType.PLANET
    isHomePlanet := false
    energyCap := 100
    energyGrowth := 10
    silverCap := 100
    silverGrowth := 0
    range := 10
    speed := 10
    defense := 100
    energy := 0
    silver := 0
    lastUpdated := 0
    upgradeState := [0, 0, 0]
    unconfirmedReveal := none
    unconfirmedDepartures := []
    unconfirmedUpgrades := []
    unconfirmedBuyHats := []
    unconfirmedPlanetTransfers := []
    unconfirmedFindArtifact := none
    unconfirmedDepositArtifact := none
    unconfirmedWithdrawArtifact := none
    unconfirmedActivateArtifact := none
    unconfirmedDeactivateArtifact := none
    unconfirmedWithdrawSilver := none
    unconfirmedProspectPlanet := none
    unconfirmedClearEmoji := false
    unconfirmedAddEmoji := false
    loadingServerState := false
    needsServerRefresh := false
    lastLoadedServerState := none
    emojiBobAnimation := none
    emojiZoopAnimation := none
    emojiZoopOutAnimation := none
    messages := none
    silverSpent := 0
    prospectedBlockNumber := none
    heldArtifactIds := []
    destroyed := false
    isInContract := false
    syncedWithContract := false
    coordsRevealed := false
    revealer := none
    claimer := none
    location := none
    biome := none
    hasTriedFindingArtifact := false
    localPhotoidUpgrade := none }

/-- Concrete ruleset constants for the concrete statements. -/
def ccT : ContractConstants :=
  { planetLevelThresholds := fun _ => 0
    MAX_NATURAL_PLANET_LEVEL := 9
    PERLIN_THRESHOLD_1 := 10
    PERLIN_THRESHOLD_2 := 20
    PERLIN_THRESHOLD_3 := 30
    BIOME_THRESHOLD_1 := 5
    BIOME_THRESHOLD_2 := 10
    PLANET_TYPE_WEIGHTS := fun _ _ => [1, 0, 0, 0, 0]
    defaultPopulationCap := fun _ => 100
    defaultPopulationGrowth := fun _ => 10
    defaultRange := fun _ => 10
    defaultSpeed := fun _ => 10
    defaultDefense := fun _ => 100
    defaultSilverCap := fun _ => 100
    defaultSilverGrowth := fun _ => 5
    defaultBarbarianPercentage := fun _ => 0
    TIME_FACTOR_HUNDREDTHS := 100
    PHOTOID_ACTIVATION_DELAY := 60
    DESTROY_THRESHOLD := 0 }

/-- Concrete hexgen functions for the concrete statements. -/
def hgT : HexGen :=
  { bytes47 := fun _ => 0
    byte89 := fun _ => 0
    bonusOf := fun _ => ⟨false, false, false, false, false⟩ }

/-! ### Shared helper lemmas -/

theorem applyUpgrade_energyCap (p : Planet) (u : Upgrade) (b : Bool) :
    (applyUpgrade p u b).energyCap = p.energyCap := by
  unfold applyUpgrade; split <;> rfl

theorem applyUpgrade_lastUpdated (p : Planet) (u : Upgrade) (b : Bool) :
    (applyUpgrade p u b).lastUpdated = p.lastUpdated := by
  unfold applyUpgrade; split <;> rfl

theorem updatePlanetToTime_lastUpdated_mono (jsExp : ℚ → ℚ) (p : Planet)
    (arts : List Artifact) (t : ℚ) (cc : ContractConstants) :
    p.lastUpdated ≤ (updatePlanetToTime jsExp p arts t cc).lastUpdated := by
  unfold updatePlanetToTime
  split
  · exact le_refl _
  · rename_i hnot
    have ht : p.lastUpdated * 1000 ≤ t := le_of_not_lt hnot
    have hle : p.lastUpdated ≤ t / 1000 := by linarith
    cases hfind : (arts.find? (isActivePhotoid cc t)) with
    | none => simpa using hle
    | some a =>
        simp only []
        split
        · simpa [applyUpgrade_lastUpdated] using hle
        · simpa using hle

theorem updatePlanetToTime_energyCap (jsExp : ℚ → ℚ) (p : Planet)
    (arts : List Artifact) (t : ℚ) (cc : ContractConstants) :
    (updatePlanetToTime jsExp p arts t cc).energyCap = p.energyCap := by
  unfold updatePlanetToTime
  split
  · rfl
  · cases hfind : (arts.find? (isActivePhotoid cc t)) with
    | none => simp
    | some a =>
        simp only []
        split
        · simp [applyUpgrade_energyCap]
        · simp

/-- Sequencing the bring-current operation (used by the monotone-time claim). -/
def bringCurrentSeq (jsExp : ℚ → ℚ) (cc : ContractConstants) (p : Planet)
    (steps : List (List Artifact × ℚ)) : Planet :=
  steps.foldl (fun q st => updatePlanetToTime jsExp q st.1 st.2 cc) p

/-! ### Claim C7 -/

/-- Claim C7: for an unowned territory (owner equal to the empty-address
sentinel) and any target timestamp, getSilverOverTime returns the stored
silver and getEnergyAtTime returns the stored energy. -/
theorem unowned_extrapolation_returns_stored (jsExp : ℚ → ℚ) (p : Planet)
    (s e t : ℚ) (h : p.owner = EMPTY_ADDRESS) :
    getSilverOverTime p s e = p.silver ∧ getEnergyAtTime jsExp p t = p.energy := by
  constructor
  · simp [getSilverOverTime, hasOwner, h]
  · by_cases hz : p.energy = 0
    · simp [getEnergyAtTime, hz]
    · simp [getEnergyAtTime, hasOwner, h, hz]

/-- A concrete unowned planet with a positive silver growth rate. -/
def pC7 : Planet := { basePlanet with silver := 7, silverGrowth := 5, energy := 3 }

/-- Witness for C7: an unowned planet with silver growth rate 5 keeps its
silver (and energy) across a 100-second extrapolation. -/
theorem unowned_extrapolation_returns_stored_witness :
    getSilverOverTime pC7 0 100000 = pC7.silver ∧
    getEnergyAtTime jsExpOne pC7 100000 = pC7.energy :=
  unowned_extrapolation_returns_stored jsExpOne pC7 0 100000 100000 (by decide)

/-! ### Claim C6 -/

/-- Claim C6: lastUpdated is non-decreasing across any sequence of
bring-current calls, and a call whose target timestamp lies strictly before
the current lastUpdated leaves the planet entirely unchanged. -/
theorem lastUpdated_monotone_and_noop (jsExp : ℚ → ℚ) (cc : ContractConstants)
    (p : Planet) (steps : List (List Artifact × ℚ)) :
    p.lastUpdated ≤ (bringCurrentSeq jsExp cc p steps).lastUpdated ∧
    ∀ arts t, t < p.lastUpdated * 1000 → updatePlanetToTime jsExp p arts t cc = p := by
  constructor
  · induction steps generalizing p with
    | nil => exact le_refl _
    | cons st rest ih =>
        exact le_trans (updatePlanetToTime_lastUpdated_mono jsExp p st.1 st.2 cc)
          (ih (updatePlanetToTime jsExp p st.1 st.2 cc))
  · intro arts t ht
    unfold updatePlanetToTime
    rw [if_pos ht]

/-- A concrete planet with lastUpdated = 1 second. -/
def pC6 : Planet := { basePlanet with lastUpdated := 1 }

/-- Witness for C6: a two-step bring-current sequence never decreases
lastUpdated, and a call targeting 500 ms (before lastUpdated = 1 s) is a
no-op. -/
theorem lastUpdated_monotone_and_noop_witness :
    pC6.lastUpdated ≤ (bringCurrentSeq jsExpOne ccT pC6 [([], 5000), ([], 2000)]).lastUpdated ∧
    updatePlanetToTime jsExpOne pC6 [] 500 ccT = pC6 :=
  ⟨(lastUpdated_monotone_and_noop jsExpOne ccT pC6 [([], 5000), ([], 2000)]).1,
   (lastUpdated_monotone_and_noop jsExpOne ccT pC6 [([], 5000), ([], 2000)]).2 [] 500
     (by norm_num [pC6, basePlanet])⟩

/-! ### Claim C10 -/

/-- Claim C10: applyUpgrade leaves energyCap unchanged and instead
multiplies speed by energyCapMultiplier/100 on top of speedMultiplier/100
(dividing by both on un-apply), scales energyGrowth, range and defense by
their own multipliers, and bring-current (which applies a due photoid
upgrade through applyUpgrade) therefore never changes energyCap either. -/
theorem applyUpgrade_scales_speed_not_energyCap (p : Planet) (u : Upgrade)
    (jsExp : ℚ → ℚ) (arts : List Artifact) (t : ℚ) (cc : ContractConstants) :
    (applyUpgrade p u false).energyCap = p.energyCap ∧
    (applyUpgrade p u false).speed
      = p.speed * (u.energyCapMultiplier / 100) * (u.speedMultiplier / 100) ∧
    (applyUpgrade p u false).energyGrowth
      = p.energyGrowth * (u.energyGroMultiplier / 100) ∧
    (applyUpgrade p u false).range = p.range * (u.rangeMultiplier / 100) ∧
    (applyUpgrade p u false).defense = p.defense * (u.defMultiplier / 100) ∧
    (applyUpgrade p u true).energyCap = p.energyCap ∧
    (applyUpgrade p u true).speed
      = p.speed / (u.energyCapMultiplier / 100) / (u.speedMultiplier / 100) ∧
    (updatePlanetToTime jsExp p arts t cc).energyCap = p.energyCap := by
  refine ⟨rfl, rfl, rfl, rfl, rfl, rfl, rfl, ?_⟩
  exact updatePlanetToTime_energyCap jsExp p arts t cc

/-! ### Claim C1 -/

theorem arriveSilver_owner (arrival : QueuedArrival) (p : Planet) :
    (arriveSilver arrival p).owner = p.owner := by
  unfold arriveSilver; split <;> rfl

theorem arriveSilver_energy (arrival : QueuedArrival) (p : Planet) :
    (arriveSilver arrival p).energy = p.energy := by
  unfold arriveSilver; split <;> rfl

theorem arriveArtifact_owner (arrival : QueuedArrival) (p : Planet) :
    (arriveArtifact arrival p).owner = p.owner := by
  unfold arriveArtifact; cases arrival.artifactId <;> rfl

theorem arriveArtifact_energy (arrival : QueuedArrival) (p : Planet) :
    (arriveArtifact arrival p).energy = p.energy := by
  unfold arriveArtifact; cases arrival.artifactId <;> rfl

theorem arriveEnergyMain_preserved (cc : ContractConstants) (a : QueuedArrival) (p : Planet) :
    (arriveEnergyMain cc a p).silver = p.silver ∧
    (arriveEnergyMain cc a p).silverCap = p.silverCap ∧
    (arriveEnergyMain cc a p).silverGrowth = p.silverGrowth ∧
    (arriveEnergyMain cc a p).energyGrowth = p.energyGrowth ∧
    (arriveEnergyMain cc a p).energyCap = p.energyCap ∧
    (arriveEnergyMain cc a p).defense = p.defense ∧
    (arriveEnergyMain cc a p).planetType = p.planetType := by
  simp only [arriveEnergyMain]
  split_ifs <;> simp

theorem bankClamp_preserved (p : Planet) :
    (bankClamp p).silver = p.silver ∧
    (bankClamp p).silverCap = p.silverCap ∧
    (bankClamp p).silverGrowth = p.silverGrowth ∧
    (bankClamp p).energyGrowth = p.energyGrowth ∧
    (bankClamp p).energyCap = p.energyCap ∧
    (bankClamp p).defense = p.defense ∧
    (bankClamp p).planetType = p.planetType ∧
    (bankClamp p).owner = p.owner := by
  unfold bankClamp
  split <;> simp

theorem bankClamp_not_bank (p : Planet) (h : p.planetType ≠ PlanetType.SILVER_BANK) :
    bankClamp p = p := by
  unfold bankClamp
  rw [if_neg (fun hc => h hc.1)]

/-- On the conquest path (attacker differs from the owner, defender energy
does not exceed the fixed-point effective damage), the main energy phase
hands the planet to the attacker with energy energyArriving minus
floor(priorEnergy * PRECISION * defense / 100) / PRECISION. -/
theorem arriveEnergyMain_conquest (cc : ContractConstants) (arrival : QueuedArrival) (p : Planet)
    (h1 : arrival.player ≠ p.owner)
    (h2 : ¬ p.energy > mathFloor (arrival.energyArriving * CONTRACT_PRECISION * 100 / p.defense)
        / CONTRACT_PRECISION) :
    (arriveEnergyMain cc arrival p).owner = arrival.player ∧
    (arriveEnergyMain cc arrival p).energy = arrival.energyArriving -
      mathFloor (p.energy * CONTRACT_PRECISION * p.defense / 100) / CONTRACT_PRECISION := by
  simp only [arriveEnergyMain]
  rw [if_pos h1, if_neg h2]
  constructor
  · split <;> rfl
  · split <;> simp

/-- On the conquest path against a non-SILVER_BANK destination (where the
post-addition clamp is a no-op), arriveEnergy hands the planet to the
attacker with the fixed-point remainder energy. -/
theorem arriveEnergy_conquest (cc : ContractConstants) (arrival : QueuedArrival) (p : Planet)
    (h1 : arrival.player ≠ p.owner)
    (h2 : ¬ p.energy > mathFloor (arrival.energyArriving * CONTRACT_PRECISION * 100 / p.defense)
        / CONTRACT_PRECISION)
    (h3 : p.planetType ≠ PlanetType.SILVER_BANK) :
    (arriveEnergy cc arrival p).owner = arrival.player ∧
    (arriveEnergy cc arrival p).energy = arrival.energyArriving -
      mathFloor (p.energy * CONTRACT_PRECISION * p.defense / 100) / CONTRACT_PRECISION := by
  unfold arriveEnergy
  rw [bankClamp_not_bank _ (by
    rw [(arriveEnergyMain_preserved cc arrival p).2.2.2.2.2.2]
    exact h3)]
  exact arriveEnergyMain_conquest cc arrival p h1 h2

/-- Claim C1 (corrected): when the arriving player differs from the owner of
the destination (brought current to the arrival time) and the current energy
does not exceed the fixed-point effective damage, conquest occurs: the owner
becomes the arriving player and, for a non-SILVER_BANK destination (banks
additionally clamp to the energy cap), the energy becomes energyArriving
minus floor(priorEnergy * PRECISION * defense / 100) / PRECISION — the
defender cost is scaled by defense/100, not by 100/defense as the claim
stated. -/
theorem arrive_conquest_sets_owner_and_energy (jsExp : ℚ → ℚ) (cc : ContractConstants)
    (toPlanet : Planet) (arts : List Artifact) (arrival : QueuedArrival)
    (hloc : toPlanet.locationId = arrival.toPlanet)
    (hdes : (updatePlanetToTime jsExp toPlanet arts (arrival.arrivalTime * 1000) cc).destroyed
      = false)
    (hatk : arrival.player
      ≠ (updatePlanetToTime jsExp toPlanet arts (arrival.arrivalTime * 1000) cc).owner)
    (hcon : ¬ (updatePlanetToTime jsExp toPlanet arts (arrival.arrivalTime * 1000) cc).energy >
      mathFloor (arrival.energyArriving * CONTRACT_PRECISION * 100 /
          (updatePlanetToTime jsExp toPlanet arts (arrival.arrivalTime * 1000) cc).defense)
        / CONTRACT_PRECISION)
    (hbank : (updatePlanetToTime jsExp toPlanet arts (arrival.arrivalTime * 1000) cc).planetType
      ≠ PlanetType.SILVER_BANK) :
    (arrive jsExp toPlanet arts arrival cc).map (fun d => (d.current.owner, d.current.energy))
      = some (arrival.player,
          arrival.energyArriving -
            mathFloor ((updatePlanetToTime jsExp toPlanet arts (arrival.arrivalTime * 1000) cc).energy
                * CONTRACT_PRECISION *
                (updatePlanetToTime jsExp toPlanet arts (arrival.arrivalTime * 1000) cc).defense / 100)
              / CONTRACT_PRECISION) := by
  unfold arrive
  rw [if_neg (by simp [hloc])]
  simp only [hdes, Bool.false_eq_true, if_false, Option.map_some]
  have h := arriveEnergy_conquest cc arrival
    (updatePlanetToTime jsExp toPlanet arts (arrival.arrivalTime * 1000) cc) hatk hcon hbank
  simp only [Option.map_some']
  rw [arriveArtifact_owner, arriveArtifact_energy, arriveSilver_owner, arriveSilver_energy,
    h.1, h.2]

/-- The concrete destination of the C1 counterexample: owner 1, energy 10,
defense 50, already current at the arrival time. -/
def pC1 : Planet :=
  { basePlanet with locationId := 7, owner := 1, energy := 10, defense := 50, lastUpdated := 100 }

/-- The concrete arrival of the C1 counterexample: player 2 attacks with
energy 200 at a time at which the destination is already current. -/
def aC1 : QueuedArrival :=
  { eventId := 1, player := 2, fromPlanet := 3, toPlanet := 7, energyArriving := 200,
    silverMoved := 0, departureTime := 0, arrivalTime := 50, artifactId := none }

/-- Counterexample to C1 as stated: with defense 50 the conquest
preconditions of the claim hold, the code yields energy
200 - floor(10 * 1000 * 50 / 100) / 1000 = 195, but the formula of the claim
(100 / defense) predicts 200 - floor(10 * 1000 * 100 / 50) / 1000 = 180. -/
theorem arrive_conquest_claimed_formula_false :
    aC1.player ≠ pC1.owner ∧
    ¬ (updatePlanetToTime jsExpOne pC1 [] (aC1.arrivalTime * 1000) ccT).energy >
      mathFloor (aC1.energyArriving * CONTRACT_PRECISION * 100 / pC1.defense)
        / CONTRACT_PRECISION ∧
    (arrive jsExpOne pC1 [] aC1 ccT).map (fun d => (d.current.owner, d.current.energy))
      = some (2, 195) ∧
    (195 : ℚ) ≠ aC1.energyArriving -
      mathFloor (pC1.energy * CONTRACT_PRECISION * 100 / pC1.defense) / CONTRACT_PRECISION := by
  refine ⟨by decide, by with_unfolding_all decide, by with_unfolding_all rfl, ?_⟩
  norm_num [pC1, aC1, basePlanet, mathFloor, CONTRACT_PRECISION]

/-- The concrete destination of the C1 witness (the spec worked example):
owner 1, energy 10, defense 100. -/
def pW1 : Planet :=
  { basePlanet with locationId := 7, owner := 1, energy := 10, defense := 100, lastUpdated := 100 }

/-- The concrete arrival of the C1 witness: player 2, energy 200. -/
def aW1 : QueuedArrival :=
  { eventId := 2, player := 2, fromPlanet := 3, toPlanet := 7, energyArriving := 200,
    silverMoved := 0, departureTime := 0, arrivalTime := 50, artifactId := none }

/-- Witness for the corrected C1, reproducing the spec worked example:
energy 10, attacker 200, defense 100 conquers with new owner 2 and new
energy 200 - floor(10 * 1000 * 100 / 100) / 1000 = 190. -/
theorem arrive_conquest_sets_owner_and_energy_witness :
    (arrive jsExpOne pW1 [] aW1 ccT).map (fun d => (d.current.owner, d.current.energy))
      = some (2, 190) := by
  have h := arrive_conquest_sets_owner_and_energy jsExpOne ccT pW1 [] aW1
    (by with_unfolding_all rfl) (by with_unfolding_all rfl)
    (by with_unfolding_all decide) (by with_unfolding_all decide)
    (by with_unfolding_all decide)
  exact h.trans (by with_unfolding_all rfl)

/-! ### Claim C3 -/

theorem applyUpgrade_destroyed (p : Planet) (u : Upgrade) (b : Bool) :
    (applyUpgrade p u b).destroyed = p.destroyed := by
  unfold applyUpgrade; split <;> rfl

theorem updatePlanetToTime_destroyed (jsExp : ℚ → ℚ) (p : Planet)
    (arts : List Artifact) (t : ℚ) (cc : ContractConstants) :
    (updatePlanetToTime jsExp p arts t cc).destroyed = p.destroyed := by
  unfold updatePlanetToTime
  split
  · rfl
  · cases hfind : (arts.find? (isActivePhotoid cc t)) with
    | none => simp
    | some a =>
        simp only []
        split
        · simp [applyUpgrade_destroyed]
        · simp

/-- Claim C3 (corrected): resolving any arrival against a destroyed
territory yields a diff whose previous and current parts are one and the
same planet, namely the destination brought current to the arrival time; in
particular no owner, energy or silver change is reported.  (The bring-current
operation itself deliberately remains in force, see the counterexample: it
does not special-case destroyed territories.) -/
theorem destroyed_arrival_diff_no_change (jsExp : ℚ → ℚ) (cc : ContractConstants)
    (toPlanet : Planet) (arts : List Artifact) (arrival : QueuedArrival)
    (hloc : toPlanet.locationId = arrival.toPlanet)
    (hdes : toPlanet.destroyed = true) :
    arrive jsExp toPlanet arts arrival cc =
      some ⟨updatePlanetToTime jsExp toPlanet arts (arrival.arrivalTime * 1000) cc,
            updatePlanetToTime jsExp toPlanet arts (arrival.arrivalTime * 1000) cc,
            arrival⟩ := by
  unfold arrive
  rw [if_neg (by simp [hloc])]
  rw [if_pos (by rw [updatePlanetToTime_destroyed]; exact hdes)]

/-- The concrete destroyed planet of the C3 counterexample: destroyed, yet
owned with a positive silver growth rate. -/
def pC3 : Planet :=
  { basePlanet with owner := 1, destroyed := true, silverGrowth := 5 }

/-- Counterexample to C3 as stated: bringing the destroyed planet current
100 seconds forward regenerates its silver from 0 to 100 — updatePlanetToTime
has no destroyed check, so a destroyed owned territory keeps regenerating. -/
theorem destroyed_planet_still_regenerates :
    pC3.destroyed = true ∧ pC3.silver = 0 ∧
    (updatePlanetToTime jsExpOne pC3 [] 100000 ccT).silver = 100 := by
  exact ⟨rfl, rfl, by with_unfolding_all rfl⟩

/-- The concrete destroyed planet of the C3 witness. -/
def pW3 : Planet := { pC3 with locationId := 9 }

/-- The concrete arrival of the C3 witness. -/
def aW3 : QueuedArrival :=
  { eventId := 3, player := 2, fromPlanet := 3, toPlanet := 9, energyArriving := 50,
    silverMoved := 5, departureTime := 0, arrivalTime := 60, artifactId := none }

/-- Witness for the corrected C3: a concrete arrival against a destroyed
planet produces a diff with previous equal to current. -/
theorem destroyed_arrival_diff_no_change_witness :
    arrive jsExpOne pW3 [] aW3 ccT =
      some ⟨updatePlanetToTime jsExpOne pW3 [] (aW3.arrivalTime * 1000) ccT,
            updatePlanetToTime jsExpOne pW3 [] (aW3.arrivalTime * 1000) ccT,
            aW3⟩ :=
  destroyed_arrival_diff_no_change jsExpOne ccT pW3 [] aW3 rfl rfl

/-! ### Claim C4 -/

/-- An entirely empty store state. -/
def emptyState : GState :=
  { planets := fun _ => none
    artifacts := fun _ => none
    wormholes := fun _ => none
    arrivals := fun _ => none
    planetArrivalIds := fun _ => none
    planetLocationMap := fun _ => none
    coordsToLocation := fun _ => none
    revealedLocations := fun _ => none
    touchedPlanetIds := []
    pendingTimers := fun _ => false
    nextTimer := 0 }

/-- Claim C4 (corrected): committing a wormhole-type artifact through
setArtifact recomputes its wormhole entry only when the artifact is
currently placed on a planet: then the entry is inserted exactly when the
artifact is activated and has a wormhole target, and removed otherwise;
when the artifact is placed on no planet, the wormhole map is left
untouched (a previously inserted entry persists), and entries of other
artifacts are never affected. -/
theorem wormhole_map_recompute (s : GState) (a : Artifact)
    (h : a.artifactType = ArtifactType.Wormhole) :
    (a.onPlanetId = none → (setArtifact s a).wormholes = s.wormholes) ∧
    (∀ f t, a.onPlanetId = some f → a.wormholeTo = some t → isActivated a = true →
      (setArtifact s a).wormholes a.id = some ⟨f, t⟩) ∧
    (∀ f, a.onPlanetId = some f → (a.wormholeTo = none ∨ isActivated a = false) →
      (setArtifact s a).wormholes a.id = none) ∧
    (∀ i, i ≠ a.id → (setArtifact s a).wormholes i = s.wormholes i) := by
  refine ⟨?_, ?_, ?_, ?_⟩
  · intro h0
    simp [setArtifact, h0]
  · intro f t hf ht ha
    simp [setArtifact, hf, h, ht, ha]
  · intro f hf hcase
    rcases hcase with hw | ha
    · simp [setArtifact, hf, h, hw]
    · cases ht : a.wormholeTo with
      | none => simp [setArtifact, hf, h, ht]
      | some t => simp [setArtifact, hf, h, ht, ha]
  · intro i hi
    unfold setArtifact
    cases hf : a.onPlanetId with
    | none => simp [hi]
    | some f =>
        cases ht : a.wormholeTo with
        | none => simp [h, hi]
        | some t =>
            by_cases ha : isActivated a
            · simp [h, ha, hi]
            · simp [h, ha, hi]

/-- The concrete artifact of the C4 counterexample: a deactivated wormhole
artifact placed on no planet. -/
def aC4 : Artifact :=
  { id := 5, artifactType := ArtifactType.Wormhole, currentOwner := 1, onPlanetId := none,
    onVoyageId := none, wormholeTo := some 2, activated := false, lastActivated := 0,
    timeDelayedUpgrade := ⟨100, 100, 100, 100, 100⟩ }

/-- A store already holding a wormhole entry for artifact 5. -/
def sC4 : GState :=
  { emptyState with wormholes := fun id => if id = 5 then some ⟨1, 2⟩ else none }

/-- Counterexample to C4 as stated: committing the unplaced, deactivated
wormhole artifact leaves its stale entry in the wormhole map, where the
claim demands removal in every case other than activated-and-placed. -/
theorem wormhole_entry_not_removed_when_unplaced :
    aC4.onPlanetId = none ∧ isActivated aC4 = false ∧
    (setArtifact sC4 aC4).wormholes aC4.id = some ⟨1, 2⟩ := by
  refine ⟨rfl, rfl, ?_⟩
  simp [setArtifact, sC4, aC4, emptyState]

/-- The concrete artifact of the C4 witness: an activated wormhole artifact
placed on planet 3 targeting planet 4. -/
def aW4 : Artifact :=
  { id := 6, artifactType := ArtifactType.Wormhole, currentOwner := 1, onPlanetId := some 3,
    onVoyageId := none, wormholeTo := some 4, activated := true, lastActivated := 0,
    timeDelayedUpgrade := ⟨100, 100, 100, 100, 100⟩ }

/-- Witness for the corrected C4: committing the activated, placed wormhole
artifact inserts its entry. -/
theorem wormhole_map_recompute_witness :
    (setArtifact emptyState aW4).wormholes aW4.id = some ⟨3, 4⟩ :=
  (wormhole_map_recompute emptyState aW4 rfl).2.1 3 4 rfl rfl rfl

/-! ### Claim C5 -/

/-- Claim C5 (corrected): the procedurally generated content of a default
planet — level, type, region, biome, bonuses and all base stats and initial
resources — is a deterministic function of the content hash, the noise
samples and the ruleset, independent of the ambient clock and of the
touched-planet set; but the synthesized record additionally stamps
lastUpdated with the current time (and isInContract with store state), so
two calls at different times are not bit-identical. -/
theorem default_planet_procgen_deterministic (hg : HexGen) (cc : ContractConstants)
    (loc : WorldLocation) (now1 now2 : ℚ) (tc1 tc2 : List LocationId) :
    (defaultPlanetFromLocation hg cc tc1 now1 loc).planetLevel
      = (defaultPlanetFromLocation hg cc tc2 now2 loc).planetLevel ∧
    (defaultPlanetFromLocation hg cc tc1 now1 loc).planetType
      = (defaultPlanetFromLocation hg cc tc2 now2 loc).planetType ∧
    (defaultPlanetFromLocation hg cc tc1 now1 loc).spaceType
      = (defaultPlanetFromLocation hg cc tc2 now2 loc).spaceType ∧
    (defaultPlanetFromLocation hg cc tc1 now1 loc).biome
      = (defaultPlanetFromLocation hg cc tc2 now2 loc).biome ∧
    (defaultPlanetFromLocation hg cc tc1 now1 loc).bonus
      = (defaultPlanetFromLocation hg cc tc2 now2 loc).bonus ∧
    (defaultPlanetFromLocation hg cc tc1 now1 loc).energyCap
      = (defaultPlanetFromLocation hg cc tc2 now2 loc).energyCap ∧
    (defaultPlanetFromLocation hg cc tc1 now1 loc).energyGrowth
      = (defaultPlanetFromLocation hg cc tc2 now2 loc).energyGrowth ∧
    (defaultPlanetFromLocation hg cc tc1 now1 loc).silverCap
      = (defaultPlanetFromLocation hg cc tc2 now2 loc).silverCap ∧
    (defaultPlanetFromLocation hg cc tc1 now1 loc).silverGrowth
      = (defaultPlanetFromLocation hg cc tc2 now2 loc).silverGrowth ∧
    (defaultPlanetFromLocation hg cc tc1 now1 loc).range
      = (defaultPlanetFromLocation hg cc tc2 now2 loc).range ∧
    (defaultPlanetFromLocation hg cc tc1 now1 loc).speed
      = (defaultPlanetFromLocation hg cc tc2 now2 loc).speed ∧
    (defaultPlanetFromLocation hg cc tc1 now1 loc).defense
      = (defaultPlanetFromLocation hg cc tc2 now2 loc).defense ∧
    (defaultPlanetFromLocation hg cc tc1 now1 loc).energy
      = (defaultPlanetFromLocation hg cc tc2 now2 loc).energy ∧
    (defaultPlanetFromLocation hg cc tc1 now1 loc).silver
      = (defaultPlanetFromLocation hg cc tc2 now2 loc).silver ∧
    (defaultPlanetFromLocation hg cc tc1 now1 loc).owner
      = (defaultPlanetFromLocation hg cc tc2 now2 loc).owner ∧
    (defaultPlanetFromLocation hg cc tc1 now1 loc).upgradeState
      = (defaultPlanetFromLocation hg cc tc2 now2 loc).upgradeState ∧
    (defaultPlanetFromLocation hg cc tc1 now1 loc).lastUpdated = mathFloor (now1 / 1000) ∧
    (defaultPlanetFromLocation hg cc tc1 now1 loc).isInContract = tc1.contains loc.hash := by
  simp [defaultPlanetFromLocation]

/-- The concrete world location of the C5 counterexample. -/
def locC5 : WorldLocation := { coords := ⟨0, 0⟩, hash := 11, perlin := 0, biomebase := 0 }

/-- Counterexample to C5 as stated: the same location synthesized at two
different times gives records that are not bit-identical — lastUpdated is
stamped from the ambient clock. -/
theorem default_planet_depends_on_now :
    defaultPlanetFromLocation hgT ccT [] 0 locC5
      ≠ defaultPlanetFromLocation hgT ccT [] 1000 locC5 ∧
    (defaultPlanetFromLocation hgT ccT [] 0 locC5).lastUpdated = 0 ∧
    (defaultPlanetFromLocation hgT ccT [] 1000 locC5).lastUpdated = 1 := by
  refine ⟨?_, by with_unfolding_all rfl, by with_unfolding_all rfl⟩
  intro h
  have h2 := congrArg Planet.lastUpdated h
  rw [show (defaultPlanetFromLocation hgT ccT [] 0 locC5).lastUpdated = 0 from
        by with_unfolding_all rfl,
      show (defaultPlanetFromLocation hgT ccT [] 1000 locC5).lastUpdated = 1 from
        by with_unfolding_all rfl] at h2
  norm_num at h2

/-! ### Claim C2 -/

/-- One operation of the extrapolation/arrival sequences of the cap claim. -/
inductive GameOp where
  | bringCurrent (arts : List Artifact) (t : ℚ)
  | arrival (arts : List Artifact) (a : QueuedArrival)

/-- Applying one operation to a planet (a failed arrive precondition leaves
the planet untouched, as the thrown error aborts the mutation). -/
def applyOp (jsExp : ℚ → ℚ) (cc : ContractConstants) (p : Planet) : GameOp → Planet
  | .bringCurrent arts t => updatePlanetToTime jsExp p arts t cc
  | .arrival arts a =>
      match arrive jsExp p arts a cc with
      | some d => d.current
      | none => p

/-- Applying a sequence of operations. -/
def applyOps (jsExp : ℚ → ℚ) (cc : ContractConstants) (p : Planet) (ops : List GameOp) : Planet :=
  ops.foldl (applyOp jsExp cc) p

/-- The resource bounds that survive every operation (silver within its cap,
energy nonnegative) together with the sign conditions on the static fields
they depend on. -/
def ResourceInv (p : Planet) : Prop :=
  0 ≤ p.energy ∧ 0 ≤ p.silver ∧ p.silver ≤ p.silverCap ∧ 0 ≤ p.silverGrowth ∧
    0 ≤ p.energyGrowth ∧ 0 ≤ p.energyCap ∧ 0 ≤ p.defense

/-- Sign conditions on an upgrade (satisfied by all deployed upgrades, whose
multipliers are percentages). -/
def UpgradeOk (u : Upgrade) : Prop :=
  0 ≤ u.energyGroMultiplier ∧ 0 ≤ u.defMultiplier

/-- Sign conditions on the artifacts handed to an operation. -/
def ArtifactsOk (arts : List Artifact) : Prop :=
  ∀ a ∈ arts, UpgradeOk a.timeDelayedUpgrade

/-- Sign conditions on one operation: nonnegative multipliers on carried
upgrades and nonnegative in-transit quantities. -/
def OpOk : GameOp → Prop
  | .bringCurrent arts _ => ArtifactsOk arts
  | .arrival arts a => ArtifactsOk arts ∧ 0 ≤ a.energyArriving ∧ 0 ≤ a.silverMoved

/-- The properties of Math.exp the model needs: positive and at most one on
nonpositive arguments. -/
def ExpLike (f : ℚ → ℚ) : Prop :=
  ∀ x, x ≤ 0 → 0 < f x ∧ f x ≤ 1

theorem jsExpOne_expLike : ExpLike jsExpOne := by
  intro x _
  exact ⟨by norm_num [jsExpOne], by norm_num [jsExpOne]⟩

theorem mathFloor_le (x : ℚ) : mathFloor x ≤ x := Int.floor_le x

theorem getSilverOverTime_bounds (p : Planet) (s e : ℚ) (h0 : 0 ≤ p.silver)
    (h1 : p.silver ≤ p.silverCap) (hg : 0 ≤ p.silverGrowth) (hse : s ≤ e) :
    0 ≤ getSilverOverTime p s e ∧ getSilverOverTime p s e ≤ p.silverCap := by
  have hcap0 : 0 ≤ p.silverCap := le_trans h0 h1
  unfold getSilverOverTime
  by_cases hown : hasOwner p
  · rw [if_neg (not_not_intro hown)]
    by_cases hover : p.silver > p.silverCap
    · rw [if_pos hover]
      exact ⟨hcap0, le_refl _⟩
    · rw [if_neg hover]
      refine ⟨le_min ?_ hcap0, min_le_right _ _⟩
      have : 0 ≤ (e / 1000 - s / 1000) * p.silverGrowth := mul_nonneg (by linarith) hg
      linarith
  · rw [if_pos hown]
    exact ⟨h0, h1⟩

/-- The logistic growth expression is nonnegative for any exp-like host
function (the arithmetic core of the energy lower bound). -/
theorem logistic_nonneg (f : ℚ → ℚ) (hf : ExpLike f) (cap en g τ : ℚ)
    (hen : 0 < en) (hc : 0 ≤ cap) (hg : 0 ≤ g) (hτ : 0 ≤ τ) :
    0 ≤ cap / (f (-4 * g * τ / cap) * (cap / en - 1) + 1) := by
  rcases eq_or_lt_of_le hc with hceq | hcpos
  · rw [← hceq]
    simp
  · have hz : -4 * g * τ / cap ≤ 0 := by
      apply div_nonpos_of_nonpos_of_nonneg _ hc
      nlinarith
    obtain ⟨hE0, hE1⟩ := hf _ hz
    have hdenom : 0 < f (-4 * g * τ / cap) * (cap / en - 1) + 1 := by
      set E := f (-4 * g * τ / cap) with hE
      rcases le_or_lt en cap with hle | hlt
      · have hq : 0 ≤ cap / en - 1 := by
          rw [sub_nonneg, le_div_iff hen]
          linarith
        nlinarith
      · have hq : cap / en - 1 < 0 := by
          rw [sub_neg, div_lt_one hen]
          exact hlt
        have hq2 : (0 : ℚ) < cap / en := div_pos hcpos hen
        nlinarith
    exact le_of_lt (div_pos hcpos hdenom)

theorem getEnergyAtTime_nonneg (f : ℚ → ℚ) (p : Planet) (t : ℚ) (hf : ExpLike f)
    (he : 0 ≤ p.energy) (hc : 0 ≤ p.energyCap) (hg : 0 ≤ p.energyGrowth)
    (ht : p.lastUpdated ≤ t / 1000) : 0 ≤ getEnergyAtTime f p t := by
  unfold getEnergyAtTime
  by_cases h1 : p.energy = 0
  · rw [if_pos h1]
  · rw [if_neg h1]
    by_cases h2 : hasOwner p
    · rw [if_neg (not_not_intro h2)]
      by_cases h3 : p.planetType = PlanetType.SILVER_BANK ∧ p.energy > p.energyCap
      · rw [if_pos h3]
        exact hc
      · rw [if_neg h3]
        exact logistic_nonneg f hf p.energyCap p.energy p.energyGrowth
          (t / 1000 - p.lastUpdated) (lt_of_le_of_ne he (Ne.symm h1)) hc hg (by linarith)
    · rw [if_pos h2]
      exact he

theorem applyUpgrade_energy (p : Planet) (u : Upgrade) (b : Bool) :
    (applyUpgrade p u b).energy = p.energy := by
  unfold applyUpgrade; split <;> rfl

theorem applyUpgrade_silver (p : Planet) (u : Upgrade) (b : Bool) :
    (applyUpgrade p u b).silver = p.silver := by
  unfold applyUpgrade; split <;> rfl

theorem applyUpgrade_silverCap (p : Planet) (u : Upgrade) (b : Bool) :
    (applyUpgrade p u b).silverCap = p.silverCap := by
  unfold applyUpgrade; split <;> rfl

theorem applyUpgrade_silverGrowth (p : Planet) (u : Upgrade) (b : Bool) :
    (applyUpgrade p u b).silverGrowth = p.silverGrowth := by
  unfold applyUpgrade; split <;> rfl

theorem applyUpgrade_false_energyGrowth (p : Planet) (u : Upgrade) :
    (applyUpgrade p u false).energyGrowth = p.energyGrowth * (u.energyGroMultiplier / 100) := rfl

theorem applyUpgrade_false_defense (p : Planet) (u : Upgrade) :
    (applyUpgrade p u false).defense = p.defense * (u.defMultiplier / 100) := rfl

theorem updatePlanetToTime_inv (f : ℚ → ℚ) (p : Planet) (arts : List Artifact) (t : ℚ)
    (cc : ContractConstants) (hf : ExpLike f) (hp : ResourceInv p) (ha : ArtifactsOk arts) :
    ResourceInv (updatePlanetToTime f p arts t cc) := by
  obtain ⟨he, hs0, hs1, hsg, heg, hec, hd⟩ := hp
  unfold updatePlanetToTime
  split
  · exact ⟨he, hs0, hs1, hsg, heg, hec, hd⟩
  · rename_i hts
    have hts' : p.lastUpdated * 1000 ≤ t := le_of_not_lt hts
    have htd : p.lastUpdated ≤ t / 1000 := by linarith
    have hsb := getSilverOverTime_bounds p (p.lastUpdated * 1000) t hs0 hs1 hsg hts'
    have heb : 0 ≤ getEnergyAtTime f
        { p with silver := getSilverOverTime p (p.lastUpdated * 1000) t } t := by
      exact getEnergyAtTime_nonneg f _ t hf he hec heg htd
    cases hfind : arts.find? (isActivePhotoid cc t) with
    | none =>
        simp only [hfind]
        exact ⟨heb, hsb.1, hsb.2, hsg, heg, hec, hd⟩
    | some a =>
        have hmem : a ∈ arts := List.mem_of_find?_eq_some hfind
        obtain ⟨hu1, hu2⟩ := ha a hmem
        simp only [hfind]
        split
        · refine ⟨?_, ?_, ?_, ?_, ?_, ?_, ?_⟩
          · rw [applyUpgrade_energy]; exact heb
          · rw [applyUpgrade_silver]; exact hsb.1
          · rw [applyUpgrade_silver, applyUpgrade_silverCap]; exact hsb.2
          · rw [applyUpgrade_silverGrowth]; exact hsg
          · rw [applyUpgrade_false_energyGrowth]
            apply mul_nonneg heg
            linarith
          · rw [applyUpgrade_energyCap]; exact hec
          · rw [applyUpgrade_false_defense]
            apply mul_nonneg hd
            linarith
        · exact ⟨heb, hsb.1, hsb.2, hsg, heg, hec, hd⟩

/-- The fixed-point arithmetic core of the conquest branch: when the
defender energy does not exceed the effective damage, the fixed-point
defender cost does not exceed the arriving energy. -/
theorem conquest_remainder_le (en eA dfn : ℚ) (hen : 0 ≤ en) (heA : 0 ≤ eA) (hd : 0 ≤ dfn)
    (hcon : en ≤ mathFloor (eA * CONTRACT_PRECISION * 100 / dfn) / CONTRACT_PRECISION) :
    mathFloor (en * CONTRACT_PRECISION * dfn / 100) / CONTRACT_PRECISION ≤ eA := by
  have hP : (0 : ℚ) < CONTRACT_PRECISION := by norm_num [CONTRACT_PRECISION]
  rcases eq_or_lt_of_le hd with hd0 | hdpos
  · have h1 : eA * CONTRACT_PRECISION * 100 / dfn = 0 := by rw [← hd0, div_zero]
    rw [h1] at hcon
    have h2 : mathFloor 0 / CONTRACT_PRECISION = 0 := by norm_num [mathFloor]
    rw [h2] at hcon
    have hen0 : en = 0 := le_antisymm hcon hen
    rw [hen0]
    have hz : (0 : ℚ) * CONTRACT_PRECISION * dfn / 100 = 0 := by ring
    rw [hz]
    have h3 : mathFloor 0 / CONTRACT_PRECISION = 0 := by norm_num [mathFloor]
    rw [h3]
    exact heA
  · have h1 : mathFloor (en * CONTRACT_PRECISION * dfn / 100) / CONTRACT_PRECISION
        ≤ en * dfn / 100 := by
      have hstep := (div_le_div_iff_of_pos_right hP).mpr
        (mathFloor_le (en * CONTRACT_PRECISION * dfn / 100))
      calc mathFloor (en * CONTRACT_PRECISION * dfn / 100) / CONTRACT_PRECISION
          ≤ en * CONTRACT_PRECISION * dfn / 100 / CONTRACT_PRECISION := hstep
        _ = en * dfn / 100 := by field_simp; ring
    have h2 : en ≤ eA * 100 / dfn := by
      refine le_trans hcon ?_
      have hstep := (div_le_div_iff_of_pos_right hP).mpr
        (mathFloor_le (eA * CONTRACT_PRECISION * 100 / dfn))
      calc mathFloor (eA * CONTRACT_PRECISION * 100 / dfn) / CONTRACT_PRECISION
          ≤ eA * CONTRACT_PRECISION * 100 / dfn / CONTRACT_PRECISION := hstep
        _ = eA * 100 / dfn := by field_simp; ring
    have h3 : en * dfn ≤ eA * 100 := (le_div_iff hdpos).mp h2
    have h4 : en * dfn / 100 ≤ eA := by
      rw [div_le_iff (show (0 : ℚ) < 100 by norm_num)]
      linarith
    linarith

theorem arriveEnergyMain_nonneg (cc : ContractConstants) (a : QueuedArrival) (p : Planet)
    (he : 0 ≤ p.energy) (hd : 0 ≤ p.defense) (hea : 0 ≤ a.energyArriving) :
    0 ≤ (arriveEnergyMain cc a p).energy := by
  simp only [arriveEnergyMain]
  by_cases hown : a.player ≠ p.owner
  · rw [if_pos hown]
    by_cases hatk : p.energy >
        mathFloor (a.energyArriving * CONTRACT_PRECISION * 100 / p.defense) / CONTRACT_PRECISION
    · rw [if_pos hatk]
      dsimp only
      linarith
    · rw [if_neg hatk]
      have hcr := conquest_remainder_le p.energy a.energyArriving p.defense he hea hd
        (le_of_not_lt hatk)
      by_cases hdc : p.owner ≠ EMPTY_ADDRESS ∧ cc.DESTROY_THRESHOLD > 0 ∧
          mathFloor (a.energyArriving * CONTRACT_PRECISION * 100 / p.defense) / CONTRACT_PRECISION
            > p.energy * cc.DESTROY_THRESHOLD
      · rw [if_pos hdc]
        dsimp only
        linarith
      · rw [if_neg hdc]
        dsimp only
        linarith
  · rw [if_neg hown]
    dsimp only
    linarith

theorem arriveEnergy_nonneg (cc : ContractConstants) (a : QueuedArrival) (p : Planet)
    (he : 0 ≤ p.energy) (hc : 0 ≤ p.energyCap) (hd : 0 ≤ p.defense)
    (hea : 0 ≤ a.energyArriving) : 0 ≤ (arriveEnergy cc a p).energy := by
  unfold arriveEnergy bankClamp
  split
  · dsimp only
    rw [(arriveEnergyMain_preserved cc a p).2.2.2.2.1]
    exact hc
  · exact arriveEnergyMain_nonneg cc a p he hd hea

theorem arriveEnergy_preserved (cc : ContractConstants) (a : QueuedArrival) (p : Planet) :
    (arriveEnergy cc a p).silver = p.silver ∧
    (arriveEnergy cc a p).silverCap = p.silverCap ∧
    (arriveEnergy cc a p).silverGrowth = p.silverGrowth ∧
    (arriveEnergy cc a p).energyGrowth = p.energyGrowth ∧
    (arriveEnergy cc a p).energyCap = p.energyCap ∧
    (arriveEnergy cc a p).defense = p.defense := by
  have hm := arriveEnergyMain_preserved cc a p
  have hb := bankClamp_preserved (arriveEnergyMain cc a p)
  exact ⟨hb.1.trans hm.1, hb.2.1.trans hm.2.1, hb.2.2.1.trans hm.2.2.1,
    hb.2.2.2.1.trans hm.2.2.2.1, hb.2.2.2.2.1.trans hm.2.2.2.2.1,
    hb.2.2.2.2.2.1.trans hm.2.2.2.2.2.1⟩

theorem arriveSilver_preserved (a : QueuedArrival) (p : Planet) :
    (arriveSilver a p).energy = p.energy ∧
    (arriveSilver a p).silverCap = p.silverCap ∧
    (arriveSilver a p).silverGrowth = p.silverGrowth ∧
    (arriveSilver a p).energyGrowth = p.energyGrowth ∧
    (arriveSilver a p).energyCap = p.energyCap ∧
    (arriveSilver a p).defense = p.defense := by
  unfold arriveSilver
  split <;> simp_all

theorem arriveSilver_silver_bounds (a : QueuedArrival) (p : Planet) (h0 : 0 ≤ p.silver)
    (h1 : p.silver ≤ p.silverCap) (hm : 0 ≤ a.silverMoved) :
    0 ≤ (arriveSilver a p).silver ∧ (arriveSilver a p).silver ≤ (arriveSilver a p).silverCap := by
  unfold arriveSilver
  split_ifs with h
  · exact ⟨by simp; linarith, by simp⟩
  · exact ⟨by simp; linarith, by simp; linarith⟩

theorem arriveArtifact_preserved (a : QueuedArrival) (p : Planet) :
    (arriveArtifact a p).energy = p.energy ∧
    (arriveArtifact a p).silver = p.silver ∧
    (arriveArtifact a p).silverCap = p.silverCap ∧
    (arriveArtifact a p).silverGrowth = p.silverGrowth ∧
    (arriveArtifact a p).energyGrowth = p.energyGrowth ∧
    (arriveArtifact a p).energyCap = p.energyCap ∧
    (arriveArtifact a p).defense = p.defense := by
  unfold arriveArtifact
  cases a.artifactId <;> simp_all

theorem arrive_inv (f : ℚ → ℚ) (p : Planet) (arts : List Artifact) (a : QueuedArrival)
    (cc : ContractConstants) (d : PlanetDiff) (hf : ExpLike f) (hp : ResourceInv p)
    (ha : ArtifactsOk arts) (hea : 0 ≤ a.energyArriving) (hm : 0 ≤ a.silverMoved)
    (harr : arrive f p arts a cc = some d) : ResourceInv d.current := by
  unfold arrive at harr
  split at harr
  · exact absurd harr (by simp)
  · have hq := updatePlanetToTime_inv f p arts (a.arrivalTime * 1000) cc hf hp ha
    set q := updatePlanetToTime f p arts (a.arrivalTime * 1000) cc with hqdef
    dsimp only at harr
    split at harr
    · cases harr
      exact hq
    · cases harr
      obtain ⟨hqe, hqs0, hqs1, hqsg, hqeg, hqec, hqd⟩ := hq
      have hE := arriveEnergy_preserved cc a q
      have hEn := arriveEnergy_nonneg cc a q hqe hqec hqd hea
      have hSb := arriveSilver_silver_bounds a (arriveEnergy cc a q)
        (by rw [hE.1]; exact hqs0) (by rw [hE.1, hE.2.1]; exact hqs1) hm
      have hS := arriveSilver_preserved a (arriveEnergy cc a q)
      have hA := arriveArtifact_preserved a (arriveSilver a (arriveEnergy cc a q))
      refine ⟨?_, ?_, ?_, ?_, ?_, ?_, ?_⟩
      · rw [hA.1, hS.1]; exact hEn
      · rw [hA.2.1]; exact hSb.1
      · rw [hA.2.1, hA.2.2.1]; exact hSb.2
      · rw [hA.2.2.2.1, hS.2.2.1, hE.2.2.1]; exact hqsg
      · rw [hA.2.2.2.2.1, hS.2.2.2.1, hE.2.2.2.1]; exact hqeg
      · rw [hA.2.2.2.2.2.1, hS.2.2.2.2.1, hE.2.2.2.2.1]; exact hqec
      · rw [hA.2.2.2.2.2.2, hS.2.2.2.2.2, hE.2.2.2.2.2]; exact hqd

theorem applyOp_inv (f : ℚ → ℚ) (cc : ContractConstants) (p : Planet) (op : GameOp)
    (hf : ExpLike f) (hp : ResourceInv p) (hop : OpOk op) : ResourceInv (applyOp f cc p op) := by
  cases op with
  | bringCurrent arts t => exact updatePlanetToTime_inv f p arts t cc hf hp hop
  | arrival arts a =>
      obtain ⟨ha, hea, hm⟩ := hop
      simp only [applyOp]
      cases harr : arrive f p arts a cc with
      | none => exact hp
      | some d => exact arrive_inv f p arts a cc d hf hp ha hea hm harr

/-- Claim C2 (corrected): across every sequence of bring-current and
arrival-resolution operations (with nonnegative growth rates, caps, defense,
upgrade multipliers and in-transit quantities), silver stays within
0 ≤ silver ≤ silverCap and energy stays nonnegative after every operation;
but energy ≤ energyCap does not hold: a reinforcement arrival (arriving
player equal to the owner) adds the incoming energy without clamping, and
only SILVER_BANK territories clamp energy back to the cap (see the
counterexample). -/
theorem resource_bounds_over_sequences (f : ℚ → ℚ) (cc : ContractConstants) (p : Planet)
    (ops : List GameOp) (hf : ExpLike f) (hp : ResourceInv p)
    (hops : ∀ op ∈ ops, OpOk op) : ResourceInv (applyOps f cc p ops) := by
  induction ops generalizing p with
  | nil => exact hp
  | cons op rest ih =>
      exact ih (applyOp f cc p op)
        (applyOp_inv f cc p op hf hp (hops op (List.mem_cons_self op rest)))
        (fun o ho => hops o (List.mem_cons_of_mem op ho))

/-- The concrete planet of the C2 counterexample: owned, empty of energy. -/
def pC2 : Planet := { basePlanet with owner := 1 }

/-- The concrete reinforcement of the C2 counterexample: the owner sends 150
energy to a planet whose cap is 100. -/
def aC2 : QueuedArrival :=
  { eventId := 4, player := 1, fromPlanet := 3, toPlanet := 0, energyArriving := 150,
    silverMoved := 0, departureTime := 0, arrivalTime := 0, artifactId := none }

/-- Counterexample to C2 as stated: a reinforcement arrival (arriving player
equals the owner) leaves energy at 150, strictly above the cap 100. -/
theorem cap_invariant_false_on_reinforcement :
    aC2.player = pC2.owner ∧
    (arrive jsExpOne pC2 [] aC2 ccT).map (fun d => (d.current.energy, d.current.energyCap))
      = some (150, 100) ∧
    ¬ ((150 : ℚ) ≤ 100) := by
  refine ⟨rfl, by with_unfolding_all rfl, by norm_num⟩

/-- The concrete planet of the C2 witness. -/
def pW2 : Planet := { basePlanet with owner := 1, energy := 50, silver := 10 }

/-- The concrete reinforcement arrival of the C2 witness. -/
def aW2 : QueuedArrival :=
  { eventId := 5, player := 1, fromPlanet := 3, toPlanet := 0, energyArriving := 20,
    silverMoved := 5, departureTime := 0, arrivalTime := 3, artifactId := none }

/-- Witness for the corrected C2: a concrete bring-current step followed by
a reinforcement arrival keeps silver within its cap and energy nonnegative. -/
theorem resource_bounds_over_sequences_witness :
    ResourceInv (applyOps jsExpOne ccT pW2
      [GameOp.bringCurrent [] 2000, GameOp.arrival [] aW2]) :=
  resource_bounds_over_sequences jsExpOne ccT pW2
    [GameOp.bringCurrent [] 2000, GameOp.arrival [] aW2]
    jsExpOne_expLike
    (by refine ⟨?_, ?_, ?_, ?_, ?_, ?_, ?_⟩ <;> norm_num [pW2, basePlanet, ResourceInv])
    (by
      intro op hop
      rcases List.mem_cons.mp hop with rfl | hop2
      · exact fun a ha => absurd ha (List.not_mem_nil a)
      · rcases List.mem_cons.mp hop2 with rfl | hop3
        · exact ⟨fun a ha => absurd ha (List.not_mem_nil a), by norm_num [aW2], by norm_num [aW2]⟩
        · exact absurd hop3 (List.not_mem_nil op))

/-! ### Claim C8 -/

/-- The tuple of every pending/unconfirmed slot of a planet. -/
def pendingSlots (p : Planet) :
    Option ℕ × List ℕ × List ℕ × List ℕ × List ℕ × Option ℕ × Option ℕ × Option ℕ ×
      Option ℕ × Option ℕ × Option ℕ × Option ℕ :=
  (p.unconfirmedReveal, p.unconfirmedDepartures, p.unconfirmedUpgrades, p.unconfirmedBuyHats,
   p.unconfirmedPlanetTransfers, p.unconfirmedFindArtifact, p.unconfirmedDepositArtifact,
   p.unconfirmedWithdrawArtifact, p.unconfirmedActivateArtifact,
   p.unconfirmedDeactivateArtifact, p.unconfirmedWithdrawSilver, p.unconfirmedProspectPlanet)

theorem pendingSlots_applyUpgrade (p : Planet) (u : Upgrade) (b : Bool) :
    pendingSlots (applyUpgrade p u b) = pendingSlots p := by
  unfold applyUpgrade; split <;> rfl

theorem pendingSlots_updatePlanetToTime (f : ℚ → ℚ) (p : Planet) (arts : List Artifact)
    (t : ℚ) (cc : ContractConstants) :
    pendingSlots (updatePlanetToTime f p arts t cc) = pendingSlots p := by
  unfold updatePlanetToTime
  split
  · rfl
  · cases hfind : arts.find? (isActivePhotoid cc t) with
    | none => simp [pendingSlots]
    | some a =>
        simp only []
        split
        · rw [pendingSlots_applyUpgrade]
          simp [pendingSlots]
        · simp [pendingSlots]

theorem locationId_applyUpgrade (p : Planet) (u : Upgrade) (b : Bool) :
    (applyUpgrade p u b).locationId = p.locationId := by
  unfold applyUpgrade; split <;> rfl

theorem locationId_updatePlanetToTime (f : ℚ → ℚ) (p : Planet) (arts : List Artifact)
    (t : ℚ) (cc : ContractConstants) :
    (updatePlanetToTime f p arts t cc).locationId = p.locationId := by
  unfold updatePlanetToTime
  split
  · rfl
  · cases hfind : arts.find? (isActivePhotoid cc t) with
    | none => simp
    | some a =>
        simp only []
        split
        · simp [locationId_applyUpgrade]
        · simp

theorem pendingSlots_arriveEnergyMain (cc : ContractConstants) (a : QueuedArrival) (p : Planet) :
    pendingSlots (arriveEnergyMain cc a p) = pendingSlots p := by
  simp only [arriveEnergyMain]
  split_ifs <;> simp [pendingSlots]

theorem pendingSlots_bankClamp (p : Planet) :
    pendingSlots (bankClamp p) = pendingSlots p := by
  unfold bankClamp; split <;> simp [pendingSlots]

theorem pendingSlots_arriveSilver (a : QueuedArrival) (p : Planet) :
    pendingSlots (arriveSilver a p) = pendingSlots p := by
  unfold arriveSilver; split <;> simp [pendingSlots]

theorem pendingSlots_arriveArtifact (a : QueuedArrival) (p : Planet) :
    pendingSlots (arriveArtifact a p) = pendingSlots p := by
  unfold arriveArtifact; cases a.artifactId <;> simp [pendingSlots]

theorem locationId_arriveEnergyMain (cc : ContractConstants) (a : QueuedArrival) (p : Planet) :
    (arriveEnergyMain cc a p).locationId = p.locationId := by
  simp only [arriveEnergyMain]
  split_ifs <;> simp

theorem locationId_bankClamp (p : Planet) : (bankClamp p).locationId = p.locationId := by
  unfold bankClamp; split <;> simp

theorem locationId_arriveSilver (a : QueuedArrival) (p : Planet) :
    (arriveSilver a p).locationId = p.locationId := by
  unfold arriveSilver; split <;> simp

theorem locationId_arriveArtifact (a : QueuedArrival) (p : Planet) :
    (arriveArtifact a p).locationId = p.locationId := by
  unfold arriveArtifact; cases a.artifactId <;> simp

/-- Arrival resolution never touches the pending slots of the destination
(and never changes its identity). -/
theorem arrive_slots (f : ℚ → ℚ) (p : Planet) (arts : List Artifact) (a : QueuedArrival)
    (cc : ContractConstants) (d : PlanetDiff) (h : arrive f p arts a cc = some d) :
    pendingSlots d.current = pendingSlots p ∧ d.current.locationId = p.locationId := by
  unfold arrive at h
  split at h
  · exact absurd h (by simp)
  · dsimp only at h
    split at h
    · cases h
      exact ⟨pendingSlots_updatePlanetToTime f p arts (a.arrivalTime * 1000) cc,
        locationId_updatePlanetToTime f p arts (a.arrivalTime * 1000) cc⟩
    · cases h
      constructor
      · rw [show pendingSlots
            (arriveArtifact a (arriveSilver a (arriveEnergy cc a
              (updatePlanetToTime f p arts (a.arrivalTime * 1000) cc)))) =
            pendingSlots (updatePlanetToTime f p arts (a.arrivalTime * 1000) cc) from by
          rw [pendingSlots_arriveArtifact, pendingSlots_arriveSilver]
          unfold arriveEnergy
          rw [pendingSlots_bankClamp, pendingSlots_arriveEnergyMain]]
        exact pendingSlots_updatePlanetToTime f p arts (a.arrivalTime * 1000) cc
      · rw [show (arriveArtifact a (arriveSilver a (arriveEnergy cc a
              (updatePlanetToTime f p arts (a.arrivalTime * 1000) cc)))).locationId =
            (updatePlanetToTime f p arts (a.arrivalTime * 1000) cc).locationId from by
          rw [locationId_arriveArtifact, locationId_arriveSilver]
          unfold arriveEnergy
          rw [locationId_bankClamp, locationId_arriveEnergyMain]]
        exact locationId_updatePlanetToTime f p arts (a.arrivalTime * 1000) cc

/-- All planets stored at an id have the given slot tuple. -/
def SlotsAt (s : GState) (pid : LocationId)
    (S : Option ℕ × List ℕ × List ℕ × List ℕ × List ℕ × Option ℕ × Option ℕ × Option ℕ ×
      Option ℕ × Option ℕ × Option ℕ × Option ℕ) : Prop :=
  ∀ p', s.planets pid = some p' → pendingSlots p' = S

theorem updateScore_planets (s : GState) (pid : LocationId) :
    (updateScore s pid).planets pid
        = (s.planets pid).map (fun p => { p with silverSpent := calculateSilverSpent p }) ∧
    ∀ id, id ≠ pid → (updateScore s pid).planets id = s.planets id := by
  unfold updateScore
  cases h : s.planets pid with
  | none => simp [h]
  | some p => refine ⟨by simp [h], fun id hid => by simp [h, hid]⟩

theorem SlotsAt_updateScore (s : GState) (pid pid' : LocationId) (S) (h : SlotsAt s pid S) :
    SlotsAt (updateScore s pid') pid S := by
  intro p' hp'
  unfold updateScore at hp'
  cases hq : s.planets pid' with
  | none =>
      rw [hq] at hp'
      exact h p' hp'
  | some q =>
      rw [hq] at hp'
      simp only [] at hp'
      by_cases hid : pid = pid'
      · rw [if_pos hid] at hp'
        cases hp'
        have := h q (hid ▸ hq)
        simpa [pendingSlots] using this
      · rw [if_neg hid] at hp'
        exact h p' hp'

theorem setPlanet_self (u : GState) (P : Planet) (pid : LocationId) (h : pid = P.locationId) :
    (setPlanet u P).planets pid = some P := by
  simp only [setPlanet]
  rw [if_pos h]

theorem SlotsAt_setPlanet_self (s : GState) (P : Planet) (S) (hP : pendingSlots P = S) :
    SlotsAt (setPlanet s P) P.locationId S := by
  intro p' hp'
  unfold setPlanet at hp'
  simp only [if_pos rfl] at hp'
  cases hp'
  exact hP

theorem processOneArrival_slotsAt (f : ℚ → ℚ) (cc : ContractConstants) (pid : LocationId)
    (now : ℚ) (acc : GState × List ArrivalWithTimer) (arr : QueuedArrival) (S)
    (h : SlotsAt acc.1 pid S) :
    SlotsAt (processOneArrival f cc pid now acc arr).1 pid S := by
  obtain ⟨s, awts⟩ := acc
  unfold processOneArrival
  dsimp only
  split
  · cases hp : s.planets pid with
    | none =>
        simp only [hp]
        exact h
    | some planet =>
        simp only [hp]
        cases harr : arrive f planet (getPlanetArtifacts s pid) arr cc with
        | none => exact h
        | some diff =>
            intro p' hp'
            unfold setPlanet at hp'
            simp only [] at hp'
            by_cases hid : pid = diff.current.locationId
            · rw [if_pos hid] at hp'
              cases hp'
              rw [(arrive_slots f planet (getPlanetArtifacts s pid) arr cc diff harr).1]
              exact h planet hp
            · rw [if_neg hid] at hp'
              exact h p' hp'
  · exact h

theorem processFold_slotsAt (f : ℚ → ℚ) (cc : ContractConstants) (pid : LocationId)
    (now : ℚ) (l : List QueuedArrival) (acc : GState × List ArrivalWithTimer) (S)
    (h : SlotsAt acc.1 pid S) :
    SlotsAt (l.foldl (processOneArrival f cc pid now) acc).1 pid S := by
  induction l generalizing acc with
  | nil => exact h
  | cons arr rest ih =>
      exact ih (processOneArrival f cc pid now acc arr)
        (processOneArrival_slotsAt f cc pid now acc arr S h)

theorem SlotsAt_process (f : ℚ → ℚ) (cc : ContractConstants) (s : GState) (pid : LocationId)
    (arrs : List QueuedArrival) (now : ℚ) (S) (h : SlotsAt s pid S) :
    SlotsAt (processArrivalsForPlanet f cc s pid arrs now).1 pid S := by
  unfold processArrivalsForPlanet
  cases hp : s.planets pid with
  | none => exact h
  | some planet =>
      dsimp only
      exact SlotsAt_updateScore _ pid pid S
        (processFold_slotsAt f cc pid now (sortByArrivalTime arrs) (s, []) S h)

theorem installArrival_planets (pid : LocationId) (s : GState) (awt : ArrivalWithTimer) :
    (installArrival pid s awt).planets = s.planets := by
  unfold installArrival
  cases h : s.planetArrivalIds pid <;> simp [h]

theorem installFold_planets (pid : LocationId) (l : List ArrivalWithTimer) (s : GState) :
    (l.foldl (installArrival pid) s).planets = s.planets := by
  induction l generalizing s with
  | nil => rfl
  | cons awt rest ih => rw [List.foldl_cons, ih, installArrival_planets]

theorem clearArrivalId_planets (s : GState) (v : VoyageId) :
    (clearArrivalId s v).planets = s.planets := by
  unfold clearArrivalId
  cases h : s.arrivals v <;> simp [h]

theorem clearOldArrivals_planets (s : GState) (pid : LocationId) :
    (clearOldArrivals s pid).planets = s.planets := by
  unfold clearOldArrivals
  cases h : s.planetArrivalIds pid with
  | none => simp [h]
  | some ids =>
      simp only [h]
      have : ∀ (l : List VoyageId) (u : GState),
          (l.foldl clearArrivalId u).planets = u.planets := by
        intro l
        induction l with
        | nil => intro u; rfl
        | cons v rest ih => intro u; rw [List.foldl_cons, ih, clearArrivalId_planets]
      simp [this]

theorem mergeLocalPlanetData_locationId (p l : Planet) :
    (mergeLocalPlanetData p l).locationId = p.locationId := rfl

theorem replaceMungePlanet_locationId (cc : ContractConstants) (s : GState) (p : Planet)
    (ua : Option (List ArtifactId)) (rl : Option RevealedLocation) (cl : Option EthAddress) :
    (replaceMungePlanet cc s p ua rl cl).locationId = p.locationId := by
  unfold replaceMungePlanet
  cases hpl : s.planets p.locationId <;> cases hloc : s.planetLocationMap p.locationId <;>
    cases ua <;> cases rl <;> cases cl <;>
    simp [mergeLocalPlanetData, hpl, hloc]

theorem replaceMungePlanet_slots (cc : ContractConstants) (s : GState) (p localPlanet : Planet)
    (ua : Option (List ArtifactId)) (rl : Option RevealedLocation) (cl : Option EthAddress)
    (hlocal : s.planets p.locationId = some localPlanet) :
    pendingSlots (replaceMungePlanet cc s p ua rl cl) = pendingSlots localPlanet := by
  unfold replaceMungePlanet
  rw [hlocal]
  cases hloc : s.planetLocationMap p.locationId <;> cases ua <;> cases rl <;> cases cl <;>
    simp [mergeLocalPlanetData, hloc, pendingSlots]

theorem replaceMungePlanet_confirmed (cc : ContractConstants) (s : GState) (p : Planet)
    (ua : Option (List ArtifactId)) (rl : Option RevealedLocation) (cl : Option EthAddress) :
    (replaceMungePlanet cc s p ua rl cl).owner = p.owner ∧
    (replaceMungePlanet cc s p ua rl cl).energy = p.energy ∧
    (replaceMungePlanet cc s p ua rl cl).silver = p.silver ∧
    (replaceMungePlanet cc s p ua rl cl).energyCap = p.energyCap ∧
    (replaceMungePlanet cc s p ua rl cl).energyGrowth = p.energyGrowth ∧
    (replaceMungePlanet cc s p ua rl cl).silverCap = p.silverCap ∧
    (replaceMungePlanet cc s p ua rl cl).silverGrowth = p.silverGrowth ∧
    (replaceMungePlanet cc s p ua rl cl).range = p.range ∧
    (replaceMungePlanet cc s p ua rl cl).speed = p.speed ∧
    (replaceMungePlanet cc s p ua rl cl).defense = p.defense ∧
    (replaceMungePlanet cc s p ua rl cl).planetLevel = p.planetLevel ∧
    (replaceMungePlanet cc s p ua rl cl).planetType = p.planetType ∧
    (replaceMungePlanet cc s p ua rl cl).upgradeState = p.upgradeState ∧
    (replaceMungePlanet cc s p ua rl cl).lastUpdated = p.lastUpdated ∧
    (replaceMungePlanet cc s p ua rl cl).destroyed = p.destroyed := by
  unfold replaceMungePlanet
  cases hpl : s.planets p.locationId <;> cases hloc : s.planetLocationMap p.locationId <;>
    cases ua <;> cases rl <;> cases cl <;>
    simp [mergeLocalPlanetData, hpl, hloc]

/-- Claim C8: for a planet already present in the local store,
replacePlanetFromContractData preserves every locally-tracked
pending/unconfirmed slot from the prior local copy in the stored result,
while (absent an arrival list, which would immediately resolve past-due
arrivals against the planet) the confirmed fields of the stored result all
come from the incoming authoritative data. -/
theorem replace_preserves_unconfirmed_slots (jsExp : ℚ → ℚ) (hg : HexGen)
    (cc : ContractConstants) (nowMillis : ℚ) (s : GState) (planet localPlanet : Planet)
    (updArr : Option (List QueuedArrival)) (updArtifacts : Option (List ArtifactId))
    (rl : Option RevealedLocation) (claimer : Option EthAddress)
    (hlocal : s.planets planet.locationId = some localPlanet) :
    (∀ p', (replacePlanetFromContractData jsExp hg cc nowMillis s planet updArr
        updArtifacts rl claimer).planets planet.locationId = some p' →
      pendingSlots p' = pendingSlots localPlanet) ∧
    (updArr = none → ∀ p', (replacePlanetFromContractData jsExp hg cc nowMillis s planet updArr
        updArtifacts rl claimer).planets planet.locationId = some p' →
      p'.owner = planet.owner ∧ p'.energy = planet.energy ∧ p'.silver = planet.silver ∧
      p'.energyCap = planet.energyCap ∧ p'.energyGrowth = planet.energyGrowth ∧
      p'.silverCap = planet.silverCap ∧ p'.silverGrowth = planet.silverGrowth ∧
      p'.range = planet.range ∧ p'.speed = planet.speed ∧ p'.defense = planet.defense ∧
      p'.planetLevel = planet.planetLevel ∧ p'.planetType = planet.planetType ∧
      p'.upgradeState = planet.upgradeState ∧ p'.lastUpdated = planet.lastUpdated ∧
      p'.destroyed = planet.destroyed) := by
  constructor
  · intro p' hp'
    unfold replacePlanetFromContractData at hp'
    dsimp only at hp'
    rw [replaceMungePlanet_locationId] at hp'
    set P := replaceMungePlanet cc
      { s with touchedPlanetIds := planet.locationId :: s.touchedPlanetIds } planet
      updArtifacts rl claimer with hP
    have hPloc : P.locationId = planet.locationId :=
      replaceMungePlanet_locationId cc _ planet updArtifacts rl claimer
    have hPslots : pendingSlots P = pendingSlots localPlanet :=
      replaceMungePlanet_slots cc _ planet localPlanet updArtifacts rl claimer hlocal
    have hset : ∀ u : GState, SlotsAt (setPlanet u P) planet.locationId
        (pendingSlots localPlanet) := by
      intro u
      rw [← hPloc]
      exact SlotsAt_setPlanet_self u P _ hPslots
    cases updArr with
    | none =>
        exact SlotsAt_updateScore _ planet.locationId planet.locationId _ (hset _) p' hp'
    | some updList =>
        dsimp only at hp'
        refine SlotsAt_updateScore _ planet.locationId planet.locationId _ ?_ p' hp'
        intro q hq
        rw [installFold_planets] at hq
        refine SlotsAt_process jsExp cc _ planet.locationId updList (nowMillis / 1000) _ ?_ q hq
        intro q' hq'
        rw [clearOldArrivals_planets] at hq'
        exact hset _ q' hq'
  · intro hnone p' hp'
    subst hnone
    unfold replacePlanetFromContractData at hp'
    dsimp only at hp'
    rw [replaceMungePlanet_locationId] at hp'
    set P := replaceMungePlanet cc
      { s with touchedPlanetIds := planet.locationId :: s.touchedPlanetIds } planet
      updArtifacts rl claimer with hP
    have hPloc : P.locationId = planet.locationId :=
      replaceMungePlanet_locationId cc _ planet updArtifacts rl claimer
    rw [(updateScore_planets _ planet.locationId).1] at hp'
    rw [setPlanet_self _ P planet.locationId hPloc.symm] at hp'
    simp only [Option.map_some'] at hp'
    cases hp'
    have hc := replaceMungePlanet_confirmed cc
      { s with touchedPlanetIds := planet.locationId :: s.touchedPlanetIds } planet
      updArtifacts rl claimer
    rw [← hP] at hc
    exact ⟨hc.1, hc.2.1, hc.2.2.1, hc.2.2.2.1, hc.2.2.2.2.1, hc.2.2.2.2.2.1,
      hc.2.2.2.2.2.2.1, hc.2.2.2.2.2.2.2.1, hc.2.2.2.2.2.2.2.2.1, hc.2.2.2.2.2.2.2.2.2.1,
      hc.2.2.2.2.2.2.2.2.2.2.1, hc.2.2.2.2.2.2.2.2.2.2.2.1, hc.2.2.2.2.2.2.2.2.2.2.2.2.1,
      hc.2.2.2.2.2.2.2.2.2.2.2.2.2.1, hc.2.2.2.2.2.2.2.2.2.2.2.2.2.2⟩

/-- The prior local copy of the C8 witness, holding speculative state. -/
def localW8 : Planet :=
  { basePlanet with
      locationId := 21
      unconfirmedReveal := some 7
      unconfirmedDepartures := [42] }

/-- The incoming authoritative planet of the C8 witness. -/
def pW8 : Planet := { basePlanet with locationId := 21, owner := 9, energy := 33 }

/-- The store of the C8 witness, holding the prior local copy. -/
def sW8 : GState :=
  { emptyState with planets := fun id => if id = 21 then some localW8 else none }

/-- Witness for C8: after ingesting the authoritative planet, the stored
planet keeps the local pending slots while taking the incoming owner. -/
theorem replace_preserves_unconfirmed_slots_witness :
    pendingSlots (((replacePlanetFromContractData jsExpOne hgT ccT 0 sW8 pW8 none
        none none none).planets 21).getD basePlanet) = pendingSlots localW8 ∧
    (((replacePlanetFromContractData jsExpOne hgT ccT 0 sW8 pW8 none
        none none none).planets 21).getD basePlanet).owner = pW8.owner := by
  have h := replace_preserves_unconfirmed_slots jsExpOne hgT ccT 0 sW8 pW8 localW8 none
    none none none (by with_unfolding_all rfl)
  exact ⟨h.1 _ (by with_unfolding_all rfl),
    (h.2 rfl _ (by with_unfolding_all rfl)).1⟩

/-! ### Claim C9 -/

theorem clearArrivalId_arrivals (s : GState) (v w : VoyageId) :
    (clearArrivalId s v).arrivals w = if w = v then none else s.arrivals w := by
  unfold clearArrivalId
  cases h : s.arrivals v <;> simp [h]

theorem clearArrivalId_timers_mono (s : GState) (v : VoyageId) (t : ℕ)
    (h : (clearArrivalId s v).pendingTimers t = true) : s.pendingTimers t = true := by
  unfold clearArrivalId at h
  cases h2 : s.arrivals v with
  | none => rw [h2] at h; exact h
  | some awt =>
      rw [h2] at h
      dsimp only at h
      by_cases ht : t = awt.timer
      · rw [if_pos ht] at h
        exact absurd h (by simp)
      · rw [if_neg ht] at h
        exact h

theorem clearArrivalId_clears (s : GState) (v : VoyageId) (awt : ArrivalWithTimer)
    (h : s.arrivals v = some awt) :
    (clearArrivalId s v).pendingTimers awt.timer = false := by
  unfold clearArrivalId
  rw [h]
  dsimp only
  rw [if_pos rfl]

theorem clearArrivalId_nextTimer (s : GState) (v : VoyageId) :
    (clearArrivalId s v).nextTimer = s.nextTimer := by
  unfold clearArrivalId
  cases h : s.arrivals v <;> simp [h]

theorem clearArrivalId_pai (s : GState) (v : VoyageId) :
    (clearArrivalId s v).planetArrivalIds = s.planetArrivalIds := by
  unfold clearArrivalId
  cases h : s.arrivals v <;> simp [h]

theorem clearFold_timers_mono (l : List VoyageId) (s : GState) (t : ℕ)
    (h : (l.foldl clearArrivalId s).pendingTimers t = true) : s.pendingTimers t = true := by
  induction l generalizing s with
  | nil => exact h
  | cons v rest ih => exact clearArrivalId_timers_mono s v t (ih (clearArrivalId s v) h)

theorem clearFold_timers_false (l : List VoyageId) (s : GState) (t : ℕ)
    (h : s.pendingTimers t = false) : (l.foldl clearArrivalId s).pendingTimers t = false := by
  cases hres : (l.foldl clearArrivalId s).pendingTimers t with
  | false => rfl
  | true => exact absurd (clearFold_timers_mono l s t hres) (by rw [h]; simp)

theorem clearFold_arrivals_none (l : List VoyageId) (s : GState) (v : VoyageId)
    (h : s.arrivals v = none) : (l.foldl clearArrivalId s).arrivals v = none := by
  induction l generalizing s with
  | nil => exact h
  | cons w rest ih =>
      apply ih
      rw [clearArrivalId_arrivals]
      split_ifs
      · rfl
      · exact h

theorem clearFold_deletes (l : List VoyageId) (s : GState) :
    ∀ v ∈ l, (l.foldl clearArrivalId s).arrivals v = none := by
  induction l generalizing s with
  | nil => intro v hv; exact absurd hv (List.not_mem_nil v)
  | cons w rest ih =>
      intro v hv
      rcases List.mem_cons.mp hv with rfl | hv2
      · rw [List.foldl_cons]
        apply clearFold_arrivals_none
        rw [clearArrivalId_arrivals, if_pos rfl]
      · exact ih (clearArrivalId s w) v hv2

theorem clearFold_clears_timers (l : List VoyageId) (s : GState) :
    ∀ v ∈ l, ∀ awt, s.arrivals v = some awt →
      (l.foldl clearArrivalId s).pendingTimers awt.timer = false := by
  induction l generalizing s with
  | nil => intro v hv; exact absurd hv (List.not_mem_nil v)
  | cons w rest ih =>
      intro v hv awt hva
      rcases List.mem_cons.mp hv with rfl | hv2
      · exact clearFold_timers_false rest (clearArrivalId s v) awt.timer
          (clearArrivalId_clears s v awt hva)
      · by_cases hvw : v = w
        · subst hvw
          exact clearFold_timers_false rest (clearArrivalId s v) awt.timer
            (clearArrivalId_clears s v awt hva)
        · apply ih (clearArrivalId s w) v hv2 awt
          rw [clearArrivalId_arrivals, if_neg hvw]
          exact hva

theorem clearFold_nextTimer (l : List VoyageId) (s : GState) :
    (l.foldl clearArrivalId s).nextTimer = s.nextTimer := by
  induction l generalizing s with
  | nil => rfl
  | cons v rest ih => rw [List.foldl_cons, ih, clearArrivalId_nextTimer]

theorem clearOldArrivals_nextTimer (s : GState) (pid : LocationId) :
    (clearOldArrivals s pid).nextTimer = s.nextTimer := by
  unfold clearOldArrivals
  cases h : s.planetArrivalIds pid <;> simp [h, clearFold_nextTimer]

theorem clearOldArrivals_pai_self (s : GState) (pid : LocationId) :
    (clearOldArrivals s pid).planetArrivalIds pid = some [] := by
  unfold clearOldArrivals
  cases h : s.planetArrivalIds pid <;> simp [h]

theorem clearOldArrivals_timers_mono (s : GState) (pid : LocationId) (t : ℕ)
    (h : (clearOldArrivals s pid).pendingTimers t = true) : s.pendingTimers t = true := by
  unfold clearOldArrivals at h
  cases h2 : s.planetArrivalIds pid with
  | none => rw [h2] at h; exact h
  | some ids =>
      rw [h2] at h
      exact clearFold_timers_mono ids s t h

theorem clearOldArrivals_deletes (s : GState) (pid : LocationId) :
    ∀ v ∈ (s.planetArrivalIds pid).getD [], (clearOldArrivals s pid).arrivals v = none := by
  unfold clearOldArrivals
  cases h : s.planetArrivalIds pid with
  | none => intro v hv; exact absurd hv (List.not_mem_nil v)
  | some ids =>
      intro v hv
      simp only [Option.getD_some] at hv
      simp only [h]
      exact clearFold_deletes ids s v hv

theorem clearOldArrivals_clears_timers (s : GState) (pid : LocationId) :
    ∀ v ∈ (s.planetArrivalIds pid).getD [], ∀ awt, s.arrivals v = some awt →
      (clearOldArrivals s pid).pendingTimers awt.timer = false := by
  unfold clearOldArrivals
  cases h : s.planetArrivalIds pid with
  | none => intro v hv; exact absurd hv (List.not_mem_nil v)
  | some ids =>
      intro v hv awt hva
      simp only [Option.getD_some] at hv
      simp only [h]
      exact clearFold_clears_timers ids s v hv awt hva

theorem processOneArrival_arrivals (f : ℚ → ℚ) (cc : ContractConstants) (pid : LocationId)
    (now : ℚ) (acc : GState × List ArrivalWithTimer) (arr : QueuedArrival) :
    (processOneArrival f cc pid now acc arr).1.arrivals = acc.1.arrivals := by
  obtain ⟨s, awts⟩ := acc
  unfold processOneArrival
  dsimp only
  split
  · cases hp : s.planets pid with
    | none => simp [hp]
    | some planet =>
        simp only [hp]
        cases harr : arrive f planet (getPlanetArtifacts s pid) arr cc <;> simp [setPlanet]
  · rfl

theorem processOneArrival_pai (f : ℚ → ℚ) (cc : ContractConstants) (pid : LocationId)
    (now : ℚ) (acc : GState × List ArrivalWithTimer) (arr : QueuedArrival) :
    (processOneArrival f cc pid now acc arr).1.planetArrivalIds = acc.1.planetArrivalIds := by
  obtain ⟨s, awts⟩ := acc
  unfold processOneArrival
  dsimp only
  split
  · cases hp : s.planets pid with
    | none => simp [hp]
    | some planet =>
        simp only [hp]
        cases harr : arrive f planet (getPlanetArtifacts s pid) arr cc <;> simp [setPlanet]
  · rfl

theorem processOneArrival_nextTimer_mono (f : ℚ → ℚ) (cc : ContractConstants)
    (pid : LocationId) (now : ℚ) (acc : GState × List ArrivalWithTimer) (arr : QueuedArrival) :
    acc.1.nextTimer ≤ (processOneArrival f cc pid now acc arr).1.nextTimer := by
  obtain ⟨s, awts⟩ := acc
  unfold processOneArrival
  dsimp only
  split
  · cases hp : s.planets pid with
    | none => simp [hp]
    | some planet =>
        simp only [hp]
        cases harr : arrive f planet (getPlanetArtifacts s pid) arr cc <;> simp [setPlanet]
  · dsimp only
    exact Nat.le_succ _

theorem processOneArrival_timers (f : ℚ → ℚ) (cc : ContractConstants) (pid : LocationId)
    (now : ℚ) (acc : GState × List ArrivalWithTimer) (arr : QueuedArrival) (t : ℕ)
    (h : (processOneArrival f cc pid now acc arr).1.pendingTimers t = true) :
    acc.1.pendingTimers t = true ∨ acc.1.nextTimer ≤ t := by
  obtain ⟨s, awts⟩ := acc
  unfold processOneArrival at h
  dsimp only at h
  split at h
  · cases hp : s.planets pid with
    | none =>
        rw [hp] at h
        exact Or.inl h
    | some planet =>
        rw [hp] at h
        dsimp only at h
        cases harr : arrive f planet (getPlanetArtifacts s pid) arr cc <;> rw [harr] at h
        · exact Or.inl h
        · exact Or.inl h
  · dsimp only at h
    by_cases ht : t = s.nextTimer
    · exact Or.inr (le_of_eq ht.symm)
    · rw [if_neg ht] at h
      exact Or.inl h

theorem processOneArrival_list (f : ℚ → ℚ) (cc : ContractConstants) (pid : LocationId)
    (now : ℚ) (acc : GState × List ArrivalWithTimer) (arr : QueuedArrival) :
    ∀ awt ∈ (processOneArrival f cc pid now acc arr).2, awt ∈ acc.2 ∨ awt.arrivalData = arr := by
  obtain ⟨s, awts⟩ := acc
  intro awt hawt
  unfold processOneArrival at hawt
  dsimp only at hawt
  split at hawt
  · cases hp : s.planets pid with
    | none =>
        rw [hp] at hawt
        exact Or.inl hawt
    | some planet =>
        rw [hp] at hawt
        dsimp only at hawt
        cases harr : arrive f planet (getPlanetArtifacts s pid) arr cc <;> rw [harr] at hawt
        · exact Or.inl hawt
        · exact Or.inl hawt
  · dsimp only at hawt
    rcases List.mem_append.mp hawt with h1 | h2
    · exact Or.inl h1
    · rcases List.mem_cons.mp h2 with rfl | h3
      · exact Or.inr rfl
      · exact absurd h3 (List.not_mem_nil awt)

theorem processFold_arrivals (f : ℚ → ℚ) (cc : ContractConstants) (pid : LocationId)
    (now : ℚ) (l : List QueuedArrival) (acc : GState × List ArrivalWithTimer) :
    (l.foldl (processOneArrival f cc pid now) acc).1.arrivals = acc.1.arrivals := by
  induction l generalizing acc with
  | nil => rfl
  | cons arr rest ih =>
      rw [List.foldl_cons, ih, processOneArrival_arrivals]

theorem processFold_pai (f : ℚ → ℚ) (cc : ContractConstants) (pid : LocationId)
    (now : ℚ) (l : List QueuedArrival) (acc : GState × List ArrivalWithTimer) :
    (l.foldl (processOneArrival f cc pid now) acc).1.planetArrivalIds
      = acc.1.planetArrivalIds := by
  induction l generalizing acc with
  | nil => rfl
  | cons arr rest ih =>
      rw [List.foldl_cons, ih, processOneArrival_pai]

theorem processFold_nextTimer_mono (f : ℚ → ℚ) (cc : ContractConstants) (pid : LocationId)
    (now : ℚ) (l : List QueuedArrival) (acc : GState × List ArrivalWithTimer) :
    acc.1.nextTimer ≤ (l.foldl (processOneArrival f cc pid now) acc).1.nextTimer := by
  induction l generalizing acc with
  | nil => exact le_refl _
  | cons arr rest ih =>
      rw [List.foldl_cons]
      exact le_trans (processOneArrival_nextTimer_mono f cc pid now acc arr)
        (ih (processOneArrival f cc pid now acc arr))

theorem processFold_timers (f : ℚ → ℚ) (cc : ContractConstants) (pid : LocationId)
    (now : ℚ) (l : List QueuedArrival) (acc : GState × List ArrivalWithTimer) (t : ℕ)
    (h : (l.foldl (processOneArrival f cc pid now) acc).1.pendingTimers t = true) :
    acc.1.pendingTimers t = true ∨ acc.1.nextTimer ≤ t := by
  induction l generalizing acc with
  | nil => exact Or.inl h
  | cons arr rest ih =>
      rw [List.foldl_cons] at h
      rcases ih (processOneArrival f cc pid now acc arr) h with h1 | h2
      · exact processOneArrival_timers f cc pid now acc arr t h1
      · exact Or.inr (le_trans (processOneArrival_nextTimer_mono f cc pid now acc arr) h2)

theorem processFold_list (f : ℚ → ℚ) (cc : ContractConstants) (pid : LocationId)
    (now : ℚ) (l : List QueuedArrival) (acc : GState × List ArrivalWithTimer) :
    ∀ awt ∈ (l.foldl (processOneArrival f cc pid now) acc).2,
      awt ∈ acc.2 ∨ awt.arrivalData ∈ l := by
  induction l generalizing acc with
  | nil => intro awt hawt; exact Or.inl hawt
  | cons arr rest ih =>
      intro awt hawt
      rw [List.foldl_cons] at hawt
      rcases ih (processOneArrival f cc pid now acc arr) awt hawt with h1 | h2
      · rcases processOneArrival_list f cc pid now acc arr awt h1 with h3 | h4
        · exact Or.inl h3
        · exact Or.inr (h4 ▸ List.mem_cons_self arr rest)
      · exact Or.inr (List.mem_cons_of_mem arr h2)

theorem insertSorted_mem (a : QueuedArrival) (l : List QueuedArrival) (b : QueuedArrival)
    (h : b ∈ insertSorted a l) : b = a ∨ b ∈ l := by
  induction l with
  | nil =>
      rcases List.mem_cons.mp h with rfl | h2
      · exact Or.inl rfl
      · exact absurd h2 (List.not_mem_nil b)
  | cons c rest ih =>
      unfold insertSorted at h
      split at h
      · rcases List.mem_cons.mp h with rfl | h2
        · exact Or.inl rfl
        · exact Or.inr h2
      · rcases List.mem_cons.mp h with rfl | h2
        · exact Or.inr (List.mem_cons_self b rest)
        · rcases ih h2 with h3 | h4
          · exact Or.inl h3
          · exact Or.inr (List.mem_cons_of_mem c h4)

theorem sortByArrivalTime_mem (l : List QueuedArrival) (b : QueuedArrival)
    (h : b ∈ sortByArrivalTime l) : b ∈ l := by
  induction l with
  | nil => exact absurd h (List.not_mem_nil b)
  | cons a rest ih =>
      unfold sortByArrivalTime at h
      rw [List.foldr_cons] at h
      rcases insertSorted_mem a (rest.foldr insertSorted []) b h with rfl | h2
      · exact List.mem_cons_self b rest
      · exact List.mem_cons_of_mem a (ih h2)

theorem updateScore_misc (s : GState) (pid : LocationId) :
    (updateScore s pid).arrivals = s.arrivals ∧
    (updateScore s pid).planetArrivalIds = s.planetArrivalIds ∧
    (updateScore s pid).pendingTimers = s.pendingTimers ∧
    (updateScore s pid).nextTimer = s.nextTimer := by
  unfold updateScore
  cases h : s.planets pid <;> simp [h]

theorem process_arrivals_eq (f : ℚ → ℚ) (cc : ContractConstants) (s : GState)
    (pid : LocationId) (l : List QueuedArrival) (now : ℚ) :
    (processArrivalsForPlanet f cc s pid l now).1.arrivals = s.arrivals := by
  unfold processArrivalsForPlanet
  cases hp : s.planets pid with
  | none => rfl
  | some planet =>
      dsimp only
      rw [(updateScore_misc _ pid).1, processFold_arrivals]

theorem process_pai_eq (f : ℚ → ℚ) (cc : ContractConstants) (s : GState)
    (pid : LocationId) (l : List QueuedArrival) (now : ℚ) :
    (processArrivalsForPlanet f cc s pid l now).1.planetArrivalIds = s.planetArrivalIds := by
  unfold processArrivalsForPlanet
  cases hp : s.planets pid with
  | none => rfl
  | some planet =>
      dsimp only
      rw [(updateScore_misc _ pid).2.1, processFold_pai]

theorem process_timers (f : ℚ → ℚ) (cc : ContractConstants) (s : GState)
    (pid : LocationId) (l : List QueuedArrival) (now : ℚ) (t : ℕ)
    (h : (processArrivalsForPlanet f cc s pid l now).1.pendingTimers t = true) :
    s.pendingTimers t = true ∨ s.nextTimer ≤ t := by
  unfold processArrivalsForPlanet at h
  cases hp : s.planets pid with
  | none =>
      rw [hp] at h
      exact Or.inl h
  | some planet =>
      rw [hp] at h
      dsimp only at h
      rw [(updateScore_misc _ pid).2.2.1] at h
      exact processFold_timers f cc pid now (sortByArrivalTime l) (s, []) t h

theorem process_list (f : ℚ → ℚ) (cc : ContractConstants) (s : GState)
    (pid : LocationId) (l : List QueuedArrival) (now : ℚ) :
    ∀ awt ∈ (processArrivalsForPlanet f cc s pid l now).2, awt.arrivalData ∈ l := by
  unfold processArrivalsForPlanet
  cases hp : s.planets pid with
  | none => intro awt hawt; exact absurd hawt (List.not_mem_nil awt)
  | some planet =>
      dsimp only
      intro awt hawt
      rcases processFold_list f cc pid now (sortByArrivalTime l) (s, []) awt hawt with h1 | h2
      · exact absurd h1 (List.not_mem_nil awt)
      · exact sortByArrivalTime_mem l _ h2

theorem installArrival_timers (pid : LocationId) (s : GState) (awt : ArrivalWithTimer) :
    (installArrival pid s awt).pendingTimers = s.pendingTimers := by
  unfold installArrival
  cases h : s.planetArrivalIds pid <;> simp [h]

theorem installArrival_nextTimer (pid : LocationId) (s : GState) (awt : ArrivalWithTimer) :
    (installArrival pid s awt).nextTimer = s.nextTimer := by
  unfold installArrival
  cases h : s.planetArrivalIds pid <;> simp [h]

theorem installArrival_arrivals (pid : LocationId) (s : GState) (awt : ArrivalWithTimer)
    (v : VoyageId) (h : v ≠ awt.arrivalData.eventId) :
    (installArrival pid s awt).arrivals v = s.arrivals v := by
  unfold installArrival
  cases h2 : s.planetArrivalIds pid <;> simp [h2, h]

theorem installArrival_pai_mem (pid : LocationId) (s : GState) (awt : ArrivalWithTimer)
    (id : VoyageId) (h : id ∈ ((installArrival pid s awt).planetArrivalIds pid).getD []) :
    id ∈ (s.planetArrivalIds pid).getD [] ∨ id = awt.arrivalData.eventId := by
  unfold installArrival at h
  dsimp only at h
  cases h2 : s.planetArrivalIds pid with
  | none => simp [h2] at h
  | some ids =>
      simp only [h2] at h
      simp only [if_true] at h
      simp only [Option.getD_some] at h
      simp only [h2, Option.getD_some]
      rcases List.mem_append.mp h with h3 | h4
      · exact Or.inl h3
      · rcases List.mem_cons.mp h4 with rfl | h5
        · exact Or.inr rfl
        · exact absurd h5 (List.not_mem_nil id)

theorem installFold_timers (pid : LocationId) (l : List ArrivalWithTimer) (s : GState) :
    (l.foldl (installArrival pid) s).pendingTimers = s.pendingTimers := by
  induction l generalizing s with
  | nil => rfl
  | cons awt rest ih => rw [List.foldl_cons, ih, installArrival_timers]

theorem installFold_arrivals (pid : LocationId) (l : List ArrivalWithTimer) (s : GState)
    (v : VoyageId) (h : ∀ awt ∈ l, v ≠ awt.arrivalData.eventId) :
    (l.foldl (installArrival pid) s).arrivals v = s.arrivals v := by
  induction l generalizing s with
  | nil => rfl
  | cons awt rest ih =>
      rw [List.foldl_cons, ih _ (fun a ha => h a (List.mem_cons_of_mem awt ha)),
        installArrival_arrivals pid s awt v (h awt (List.mem_cons_self awt rest))]

theorem installFold_pai_mem (pid : LocationId) (l : List ArrivalWithTimer) (s : GState)
    (id : VoyageId) (h : id ∈ ((l.foldl (installArrival pid) s).planetArrivalIds pid).getD []) :
    id ∈ (s.planetArrivalIds pid).getD [] ∨ ∃ awt ∈ l, id = awt.arrivalData.eventId := by
  induction l generalizing s with
  | nil => exact Or.inl h
  | cons awt rest ih =>
      rw [List.foldl_cons] at h
      rcases ih (installArrival pid s awt) h with h1 | h2
      · rcases installArrival_pai_mem pid s awt id h1 with h3 | h4
        · exact Or.inl h3
        · exact Or.inr ⟨awt, List.mem_cons_self awt rest, h4⟩
      · rcases h2 with ⟨awt2, hmem, heq⟩
        exact Or.inr ⟨awt2, List.mem_cons_of_mem awt hmem, heq⟩

theorem setPlanet_misc (s : GState) (p : Planet) :
    (setPlanet s p).arrivals = s.arrivals ∧
    (setPlanet s p).planetArrivalIds = s.planetArrivalIds ∧
    (setPlanet s p).pendingTimers = s.pendingTimers ∧
    (setPlanet s p).nextTimer = s.nextTimer :=
  ⟨rfl, rfl, rfl, rfl⟩

theorem markLocationRevealed_misc (s : GState) (rl : RevealedLocation) :
    (markLocationRevealed s rl).arrivals = s.arrivals ∧
    (markLocationRevealed s rl).planetArrivalIds = s.planetArrivalIds ∧
    (markLocationRevealed s rl).pendingTimers = s.pendingTimers ∧
    (markLocationRevealed s rl).nextTimer = s.nextTimer :=
  ⟨rfl, rfl, rfl, rfl⟩

theorem addPlanetLocation_misc (hg : HexGen) (cc : ContractConstants) (nowMillis : ℚ)
    (s : GState) (loc : WorldLocation) :
    (addPlanetLocation hg cc nowMillis s loc).arrivals = s.arrivals ∧
    (addPlanetLocation hg cc nowMillis s loc).planetArrivalIds = s.planetArrivalIds ∧
    (addPlanetLocation hg cc nowMillis s loc).pendingTimers = s.pendingTimers ∧
    (addPlanetLocation hg cc nowMillis s loc).nextTimer = s.nextTimer := by
  unfold addPlanetLocation setPlanet
  dsimp only
  split <;> split <;> split <;> simp_all

/-- The arrival-rescheduling phase of reconciliation, seen from a pre-state
MS whose arrival bookkeeping agrees with the original store s: every old
arrival id of the planet has its timer released and is out of the global
map and per-planet index unless reinstated by the authoritative list. -/
theorem reconcile_core (jsExp : ℚ → ℚ) (cc : ContractConstants) (s MS : GState) (P : Planet)
    (updArr : List QueuedArrival) (nowMillis : ℚ)
    (hARR : MS.arrivals = s.arrivals) (hPAI : MS.planetArrivalIds = s.planetArrivalIds)
    (hTIM : MS.pendingTimers = s.pendingTimers) (hNXT : MS.nextTimer = s.nextTimer)
    (hfresh : ∀ v awt, s.arrivals v = some awt → awt.timer < s.nextTimer)
    (pid : LocationId) (id : VoyageId)
    (hid : id ∈ (s.planetArrivalIds pid).getD []) :
    (∀ awt, s.arrivals id = some awt →
      (updateScore
        ((processArrivalsForPlanet jsExp cc (clearOldArrivals (setPlanet MS P) pid) pid updArr
          (nowMillis / 1000)).2.foldl (installArrival pid)
         (processArrivalsForPlanet jsExp cc (clearOldArrivals (setPlanet MS P) pid) pid updArr
          (nowMillis / 1000)).1) pid).pendingTimers awt.timer = false) ∧
    (id ∉ updArr.map QueuedArrival.eventId →
      (updateScore
        ((processArrivalsForPlanet jsExp cc (clearOldArrivals (setPlanet MS P) pid) pid updArr
          (nowMillis / 1000)).2.foldl (installArrival pid)
         (processArrivalsForPlanet jsExp cc (clearOldArrivals (setPlanet MS P) pid) pid updArr
          (nowMillis / 1000)).1) pid).arrivals id = none ∧
      id ∉ ((updateScore
        ((processArrivalsForPlanet jsExp cc (clearOldArrivals (setPlanet MS P) pid) pid updArr
          (nowMillis / 1000)).2.foldl (installArrival pid)
         (processArrivalsForPlanet jsExp cc (clearOldArrivals (setPlanet MS P) pid) pid updArr
          (nowMillis / 1000)).1) pid).planetArrivalIds pid).getD []) := by
  have hSPpai : (setPlanet MS P).planetArrivalIds = s.planetArrivalIds := hPAI
  have hSParr : (setPlanet MS P).arrivals = s.arrivals := hARR
  have hSPnxt : (setPlanet MS P).nextTimer = s.nextTimer := hNXT
  have hidSP : id ∈ ((setPlanet MS P).planetArrivalIds pid).getD [] := by
    rw [hSPpai]
    exact hid
  constructor
  · intro awt hawt
    have hawtSP : (setPlanet MS P).arrivals id = some awt := by
      rw [hSParr]
      exact hawt
    rw [(updateScore_misc _ pid).2.2.1, installFold_timers]
    cases hres : (processArrivalsForPlanet jsExp cc (clearOldArrivals (setPlanet MS P) pid)
        pid updArr (nowMillis / 1000)).1.pendingTimers awt.timer with
    | false => rfl
    | true =>
        exfalso
        rcases process_timers jsExp cc (clearOldArrivals (setPlanet MS P) pid) pid updArr
            (nowMillis / 1000) awt.timer hres with h1 | h2
        · have hfalse := clearOldArrivals_clears_timers (setPlanet MS P) pid id hidSP awt hawtSP
          rw [hfalse] at h1
          exact absurd h1 (by simp)
        · rw [clearOldArrivals_nextTimer, hSPnxt] at h2
          have hlt := hfresh id awt hawt
          omega
  · intro hnotin
    have hne : ∀ awt' ∈ (processArrivalsForPlanet jsExp cc
        (clearOldArrivals (setPlanet MS P) pid) pid updArr (nowMillis / 1000)).2,
        id ≠ awt'.arrivalData.eventId := by
      intro awt' hmem heq
      exact hnotin (List.mem_map.mpr ⟨awt'.arrivalData,
        process_list jsExp cc (clearOldArrivals (setPlanet MS P) pid) pid updArr
          (nowMillis / 1000) awt' hmem, heq.symm⟩)
    constructor
    · rw [(updateScore_misc _ pid).1, installFold_arrivals pid _ _ id hne, process_arrivals_eq]
      exact clearOldArrivals_deletes (setPlanet MS P) pid id hidSP
    · intro hmem
      rw [(updateScore_misc _ pid).2.1] at hmem
      rcases installFold_pai_mem pid _ _ id hmem with h1 | h2
      · rw [process_pai_eq, clearOldArrivals_pai_self] at h1
        exact absurd h1 (by simp)
      · rcases h2 with ⟨awt', hmem2, heq⟩
        exact hne awt' hmem2 heq

set_option maxHeartbeats 2000000 in
/-- Claim C9: when replacePlanetFromContractData is called with a fresh
arrival list, every previously scheduled arrival for that planet is
cancelled before the authoritative list is installed (clearOldArrivals runs
before processArrivalsForPlanet in the sequential funnel): afterwards its
timer is no longer pending, and, unless the same voyage id reappears in the
authoritative list, it is gone from the global arrivals map and from the
per-planet arrival index.  Timer freshness (every recorded timer is below
the timer counter) is the counter invariant of the store. -/
theorem reconcile_cancels_old_arrivals (jsExp : ℚ → ℚ) (hg : HexGen) (cc : ContractConstants)
    (nowMillis : ℚ) (s : GState) (planet : Planet) (updArr : List QueuedArrival)
    (updArtifacts : Option (List ArtifactId)) (rl : Option RevealedLocation)
    (claimer : Option EthAddress)
    (hfresh : ∀ v awt, s.arrivals v = some awt → awt.timer < s.nextTimer) :
    ∀ id ∈ (s.planetArrivalIds planet.locationId).getD [],
      (∀ awt, s.arrivals id = some awt →
        (replacePlanetFromContractData jsExp hg cc nowMillis s planet (some updArr)
          updArtifacts rl claimer).pendingTimers awt.timer = false) ∧
      (id ∉ updArr.map QueuedArrival.eventId →
        (replacePlanetFromContractData jsExp hg cc nowMillis s planet (some updArr)
          updArtifacts rl claimer).arrivals id = none ∧
        id ∉ ((replacePlanetFromContractData jsExp hg cc nowMillis s planet (some updArr)
          updArtifacts rl claimer).planetArrivalIds planet.locationId).getD []) := by
  intro id hid
  cases rl with
  | none =>
      unfold replacePlanetFromContractData
      dsimp only
      rw [replaceMungePlanet_locationId]
      exact reconcile_core jsExp cc s
        { s with touchedPlanetIds := planet.locationId :: s.touchedPlanetIds } _ updArr
        nowMillis rfl rfl rfl rfl hfresh planet.locationId id hid
  | some r =>
      unfold replacePlanetFromContractData
      dsimp only
      rw [replaceMungePlanet_locationId]
      have hm := addPlanetLocation_misc hg cc nowMillis
        (markLocationRevealed
          { s with touchedPlanetIds := planet.locationId :: s.touchedPlanetIds } r) r.loc
      exact reconcile_core jsExp cc s _ _ updArr nowMillis hm.1 hm.2.1 hm.2.2.1 hm.2.2.2 hfresh
        planet.locationId id hid

/-- The planet of the C9 witness. -/
def pW9 : Planet := { basePlanet with locationId := 25 }

/-- The previously scheduled arrival of the C9 witness, holding timer 0. -/
def awtW9 : ArrivalWithTimer :=
  ⟨{ eventId := 100, player := 1, fromPlanet := 1, toPlanet := 25, energyArriving := 0,
     silverMoved := 0, departureTime := 0, arrivalTime := 999, artifactId := none }, 0⟩

/-- The store of the C9 witness: one planet with one scheduled arrival whose
timer 0 is pending, and timer counter 1. -/
def sW9 : GState :=
  { emptyState with
      planets := fun id => if id = 25 then some pW9 else none
      arrivals := fun v => if v = 100 then some awtW9 else none
      planetArrivalIds := fun l => if l = 25 then some [100] else none
      pendingTimers := fun t => t == 0
      nextTimer := 1 }

/-- Witness for C9: reconciling planet 25 with an empty authoritative list
releases timer 0 and removes voyage 100 from the global map and index. -/
theorem reconcile_cancels_old_arrivals_witness :
    (replacePlanetFromContractData jsExpOne hgT ccT 0 sW9 pW9 (some []) none none
      none).pendingTimers 0 = false ∧
    (replacePlanetFromContractData jsExpOne hgT ccT 0 sW9 pW9 (some []) none none
      none).arrivals 100 = none ∧
    100 ∉ ((replacePlanetFromContractData jsExpOne hgT ccT 0 sW9 pW9 (some []) none none
      none).planetArrivalIds 25).getD [] := by
  have h := reconcile_cancels_old_arrivals jsExpOne hgT ccT 0 sW9 pW9 [] none none none
    (by
      intro v awt hva
      by_cases hv : v = 100
      · subst hv
        have hawq : awt = awtW9 := by simpa [sW9, emptyState] using hva.symm
        rw [hawq]
        norm_num [awtW9, sW9, emptyState]
      · simp [sW9, emptyState, hv] at hva)
    100 (by simp [sW9, emptyState, pW9, basePlanet])
  exact ⟨h.1 awtW9 (by simp [sW9, emptyState]),
    (h.2 (by simp)).1, (h.2 (by simp)).2⟩

end DFClient
